import Mathlib

/-! The core of `library-api`

A shallow embedding of the lending engine, `controllers/book_controller.go`
(`BorrowBook`, `ReturnBook`) over the two tables of `models/book_copy.go` and
`models/borrow.go`, of the token authenticator, `middleware/jwt.go` with the two
login handlers, and of the rate limiter, `middleware/rate_limit.go`.

The database is the state: a `Store` holds the live rows of `book_copies` and
`borrows`.  A handler takes the persisted store, the gin context value
`userID`, the bound request and an environment (which storage statements
return an error, and what `time.Now()` reads), and gives back the HTTP response
together with the persisted store after the call.

Conventions: unsigned integers are naturals; a table is the list of its rows that are
not soft-deleted (what every gorm statement of the handlers reads and writes), and the
soft-deleted rows of `book_copies`, which the raw sub-select of the duplicate check also
reads, are kept next to them; `Create` gives the new row a key above every key in the
table; the
statements of one call run inside one transaction, whose writes reach the persisted
store only through `Commit`.
-/

namespace LibraryApi

/-! ## Data model (`models/`) -/

/-- The type `models.BookCopyStatus` with its four constants. -/
inductive BookCopyStatus where
  | CopyAvailable
  | CopyBorrowed
  | CopyLost
  | CopyMaintenance
deriving DecidableEq, Repr

/-- The type `models.BorrowStatus` with its four constants. -/
inductive BorrowStatus where
  | BorrowActive
  | BorrowReturned
  | BorrowOverdue
  | BorrowLost
deriving DecidableEq, Repr

/-- The row type `models.BookCopy`: primary key, owning title and status column. -/
structure BookCopy where
  ID : Nat
  BookID : Nat
  Status : BookCopyStatus
deriving DecidableEq, Repr

/-- The row type `models.Borrow`.  Instants are integers (nanoseconds on the wall clock);
`ReturnDate` is the nullable `*time.Time`. -/
structure Borrow where
  ID : Nat
  UserID : Nat
  BookCopyID : Nat
  BorrowDate : Int
  DueDate : Int
  ReturnDate : Option Int
  Status : BorrowStatus
deriving DecidableEq, Repr

/-- The persisted tables `book_copies` and `borrows`: the live rows of each, and the
rows of `book_copies` whose `deleted_at` is set.  The gorm statements of the handlers
(`First`, `Save`, `Count` on the model) carry the condition `deleted_at IS NULL` and see
the live rows only; raw SQL sees both lists. -/
structure Store where
  bookCopies : List BookCopy
  borrows : List Borrow
  deletedCopies : List BookCopy := []
deriving DecidableEq, Repr

/-- Primary keys are unique among the live rows of each table (`gorm:"primaryKey"`). -/
def Store.WF (s : Store) : Prop :=
  (s.bookCopies.map BookCopy.ID).Nodup ∧ (s.borrows.map Borrow.ID).Nodup

instance (s : Store) : Decidable s.WF := by
  unfold Store.WF; infer_instance

/-! ## Requests, responses, environment -/

/-- The body `BorrowBookRequest`: `book_id` (uint) and `days` (int). -/
structure BorrowBookRequest where
  BookID : Nat
  Days : Int
deriving DecidableEq, Repr

/-- The body `ReturnBookRequest`: `borrow_id` (uint). -/
structure ReturnBookRequest where
  BorrowID : Nat
deriving DecidableEq, Repr

/-- The binding tags of `BorrowBookRequest`: `book_id` is `required` (non-zero),
`days` is `required,min=1,max=30`. -/
def bindBorrowBookRequest (req : BorrowBookRequest) : Bool :=
  decide (req.BookID ≠ 0) && decide (req.Days ≠ 0) && decide (1 ≤ req.Days) && decide (req.Days ≤ 30)

/-- The binding tag of `ReturnBookRequest`: `borrow_id` is `required` (non-zero). -/
def bindReturnBookRequest (req : ReturnBookRequest) : Bool :=
  decide (req.BorrowID ≠ 0)

/-- What `c.JSON` writes: an `error` object, the validator's own error text,
a `message` object, or the borrow record. -/
inductive Body where
  | error (msg : String)
  | bindError
  | message (msg : String)
  | borrow (b : Borrow)
deriving DecidableEq, Repr

/-- An HTTP response: status code and JSON body. -/
structure Response where
  code : Nat
  body : Body
deriving DecidableEq, Repr

/-- The environment of one `BorrowBook` call: for each storage statement whether it
returns an error, and the two readings of `time.Now()` (the first for
`BorrowDate`, the second for `DueDate`). -/
structure BorrowEnv where
  firstFails : Bool
  countFails : Bool
  saveFails : Bool
  createFails : Bool
  commitFails : Bool
  now1 : Int
  now2 : Int
deriving DecidableEq, Repr

/-- The environment of one `ReturnBook` call: for each storage statement whether it
returns an error, and the reading of `time.Now()`. -/
structure ReturnEnv where
  firstBorrowFails : Bool
  saveBorrowFails : Bool
  firstCopyFails : Bool
  saveCopyFails : Bool
  commitFails : Bool
  now : Int
deriving DecidableEq, Repr

/-! ## Storage statements (gorm) -/

/-- A transaction: the store as it was at `Begin`, and the store the statements of
the transaction have written to. -/
structure Tx where
  base : Store
  work : Store
deriving Repr

/-- The call `database.DB.Begin()`. -/
def Begin (db : Store) : Tx := ⟨db, db⟩

/-- The call `tx.Rollback()`: the persisted store is the one from before `Begin`. -/
def Tx.Rollback (tx : Tx) : Store := tx.base

/-- The call `tx.Commit()`: the writes of the transaction become the persisted store. -/
def Tx.Commit (tx : Tx) : Store := tx.work

/-- In gorm `First` orders by primary key: of the rows, the one with the least key
(the earlier row on a tie). -/
def leastByID {α : Type} (key : α → Nat) : List α → Option α
  | [] => none
  | r :: rs =>
    match leastByID key rs with
    | none => some r
    | some m => if key m < key r then some m else some r

/-- The query `tx.Where("book_id = ? AND status = ?", bookID, CopyAvailable).First(&bookCopy)`. -/
def firstAvailableCopy (bookID : Nat) (rows : List BookCopy) : Option BookCopy :=
  leastByID BookCopy.ID
    (rows.filter (fun c => decide (c.BookID = bookID) && decide (c.Status = .CopyAvailable)))

/-- The sub-select `SELECT id FROM book_copies WHERE book_id = ?` over the rows it is
given. -/
def copyIDsOfBook (bookID : Nat) (rows : List BookCopy) : List Nat :=
  (rows.filter (fun c => decide (c.BookID = bookID))).map BookCopy.ID

/-- The query `tx.Model(&Borrow{}).Where("user_id = ? AND book_copy_id IN (...) AND status = ?",
userID, bookID, BorrowActive).Count(&n)`: the borrows are the live rows of the model; the
sub-select is raw SQL without a `deleted_at` condition and ranges over every row of
`book_copies`, soft-deleted ones included. -/
def countActiveBorrows (userID bookID : Nat) (s : Store) : Nat :=
  (s.borrows.filter (fun b =>
      decide (b.UserID = userID) &&
        decide (b.BookCopyID ∈ copyIDsOfBook bookID (s.bookCopies ++ s.deletedCopies))
        && decide (b.Status = .BorrowActive))).length

/-- The statement `tx.Save(&bookCopy)`: every column of the row with this primary key is written. -/
def saveBookCopy (c : BookCopy) (rows : List BookCopy) : List BookCopy :=
  rows.map (fun r => if r.ID = c.ID then c else r)

/-- The statement `tx.Save(&borrow)`: every column of the row with this primary key is written. -/
def saveBorrow (b : Borrow) (rows : List Borrow) : List Borrow :=
  rows.map (fun r => if r.ID = b.ID then b else r)

/-- The key the table gives the next inserted row: one more than the largest key in it. -/
def nextBorrowID (rows : List Borrow) : Nat :=
  (rows.map Borrow.ID).foldr max 0 + 1

/-- The statement `tx.Create(&borrow)`: the row is inserted under a fresh key, which is written back
into the struct. -/
def createBorrow (b : Borrow) (rows : List Borrow) : Borrow × List Borrow :=
  let b1 := { b with ID := nextBorrowID rows }
  (b1, rows ++ [b1])

/-- The query `tx.Where("id = ? AND user_id = ? AND status = ?", id, userID, BorrowActive).First(&borrow)`. -/
def firstActiveBorrow (id userID : Nat) (rows : List Borrow) : Option Borrow :=
  leastByID Borrow.ID
    (rows.filter (fun b =>
      decide (b.ID = id) && decide (b.UserID = userID) && decide (b.Status = .BorrowActive)))

/-- The query `tx.First(&bookCopy, id)`. -/
def firstCopyByID (id : Nat) (rows : List BookCopy) : Option BookCopy :=
  leastByID BookCopy.ID (rows.filter (fun c => decide (c.ID = id)))

/-- The method `time.Time.AddDate(0, 0, days)` at a fixed offset: whole days of 86400 seconds,
in nanoseconds. -/
def AddDate (t : Int) (days : Int) : Int :=
  t + days * 86400000000000

/-! ## Handlers (`controllers/book_controller.go`) -/

/-- The handler `BorrowBook`, lines 312-389 of `book_controller.go`.  The error of the
`Count` statement is not read (lines 345-348): on an error the counter keeps its zero.
The `Preload(...).First(&borrow)` after the commit reads the inserted row back by its
key, so the body of the 200 response is the created record. -/
def BorrowBook (db : Store) (userID : Option Nat) (req : BorrowBookRequest)
    (env : BorrowEnv) : Response × Store :=
  if bindBorrowBookRequest req = false then
    (⟨400, .bindError⟩, db)
  else
    match userID with
    | none => (⟨401, .error "unauthorized"⟩, db)
    | some uid =>
      let tx := Begin db
      match (if env.firstFails then none else firstAvailableCopy req.BookID tx.work.bookCopies) with
      | none => (⟨404, .error "no available copies of this book"⟩, tx.Rollback)
      | some found =>
        let activeBorrowCount :=
          if env.countFails then 0 else countActiveBorrows uid req.BookID tx.work
        if activeBorrowCount > 0 then
          (⟨409, .error "you already have an active borrow for this book"⟩, tx.Rollback)
        else
          let bookCopy := { found with Status := BookCopyStatus.CopyBorrowed }
          if env.saveFails then
            (⟨500, .error "failed to update book copy status"⟩, tx.Rollback)
          else
            let tx1 : Tx :=
              { tx with work := { tx.work with bookCopies := saveBookCopy bookCopy tx.work.bookCopies } }
            let borrow : Borrow :=
              { ID := 0, UserID := uid, BookCopyID := bookCopy.ID, BorrowDate := env.now1,
                DueDate := AddDate env.now2 req.Days, ReturnDate := none,
                Status := BorrowStatus.BorrowActive }
            if env.createFails then
              (⟨500, .error "failed to create borrow record"⟩, tx1.Rollback)
            else
              let created := createBorrow borrow tx1.work.borrows
              let tx2 : Tx := { tx1 with work := { tx1.work with borrows := created.2 } }
              if env.commitFails then
                (⟨500, .error "failed to commit transaction"⟩, tx2.Rollback)
              else
                (⟨200, .borrow created.1⟩, tx2.Commit)

/-- The handler `ReturnBook`, lines 392-456 of `book_controller.go`. -/
def ReturnBook (db : Store) (userID : Option Nat) (req : ReturnBookRequest)
    (env : ReturnEnv) : Response × Store :=
  if bindReturnBookRequest req = false then
    (⟨400, .bindError⟩, db)
  else
    match userID with
    | none => (⟨401, .error "unauthorized"⟩, db)
    | some uid =>
      let tx := Begin db
      match (if env.firstBorrowFails then none
             else firstActiveBorrow req.BorrowID uid tx.work.borrows) with
      | none => (⟨404, .error "active borrow record not found for this user"⟩, tx.Rollback)
      | some found =>
        let borrow := { found with ReturnDate := some env.now, Status := BorrowStatus.BorrowReturned }
        if env.saveBorrowFails then
          (⟨500, .error "failed to update borrow record"⟩, tx.Rollback)
        else
          let tx1 : Tx :=
            { tx with work := { tx.work with borrows := saveBorrow borrow tx.work.borrows } }
          match (if env.firstCopyFails then none
                 else firstCopyByID borrow.BookCopyID tx1.work.bookCopies) with
          | none => (⟨500, .error "failed to find book copy"⟩, tx1.Rollback)
          | some foundCopy =>
            let bookCopy := { foundCopy with Status := BookCopyStatus.CopyAvailable }
            if env.saveCopyFails then
              (⟨500, .error "failed to update book copy status"⟩, tx1.Rollback)
            else
              let tx2 : Tx :=
                { tx1 with work :=
                    { tx1.work with bookCopies := saveBookCopy bookCopy tx1.work.bookCopies } }
              if env.commitFails then
                (⟨500, .error "failed to commit transaction"⟩, tx2.Rollback)
              else
                (⟨200, .message "book returned successfully"⟩, tx2.Commit)

/-! ## Vocabulary of the claims -/

/-- The record `BorrowBook` inserts when it has selected copy `c`. -/
def newBorrow (db : Store) (uid : Nat) (c : BookCopy) (req : BorrowBookRequest)
    (env : BorrowEnv) : Borrow :=
  { ID := nextBorrowID db.borrows, UserID := uid, BookCopyID := c.ID, BorrowDate := env.now1,
    DueDate := AddDate env.now2 req.Days, ReturnDate := none, Status := .BorrowActive }

/-- The store `BorrowBook` commits when it has selected copy `c`. -/
def borrowedStore (db : Store) (uid : Nat) (c : BookCopy) (req : BorrowBookRequest)
    (env : BorrowEnv) : Store :=
  { db with
    bookCopies := saveBookCopy { c with Status := .CopyBorrowed } db.bookCopies,
    borrows := db.borrows ++ [newBorrow db uid c req env] }

/-- The store `ReturnBook` commits when it has found borrow `b` and copy `c`. -/
def returnedStore (db : Store) (b : Borrow) (c : BookCopy) (env : ReturnEnv) : Store :=
  { db with
    bookCopies := saveBookCopy { c with Status := .CopyAvailable } db.bookCopies,
    borrows := saveBorrow { b with ReturnDate := some env.now, Status := .BorrowReturned } db.borrows }

/-- No storage statement of the `BorrowBook` call returns an error. -/
def BorrowEnv.noFault (env : BorrowEnv) : Prop :=
  env.firstFails = false ∧ env.countFails = false ∧ env.saveFails = false ∧
    env.createFails = false ∧ env.commitFails = false

/-- No storage statement of the `ReturnBook` call returns an error. -/
def ReturnEnv.noFault (env : ReturnEnv) : Prop :=
  env.firstBorrowFails = false ∧ env.saveBorrowFails = false ∧ env.firstCopyFails = false ∧
    env.saveCopyFails = false ∧ env.commitFails = false

instance (env : BorrowEnv) : Decidable env.noFault := by
  unfold BorrowEnv.noFault; infer_instance

instance (env : ReturnEnv) : Decidable env.noFault := by
  unfold ReturnEnv.noFault; infer_instance

/-- Borrow `b` is an active loan of user `u` on some copy of title `t`: a row of
`book_copies` with that title, soft-deleted or not (a loan on a copy that was removed
from the shelves since is still a loan of the title). -/
def activeLoanOn (s : Store) (u t : Nat) (b : Borrow) : Prop :=
  b.UserID = u ∧ b.Status = .BorrowActive ∧
    ∃ c ∈ s.bookCopies ++ s.deletedCopies, c.ID = b.BookCopyID ∧ c.BookID = t

instance (s : Store) (u t : Nat) (b : Borrow) : Decidable (activeLoanOn s u t b) := by
  unfold activeLoanOn; infer_instance

/-- The 404 response of `BorrowBook`. -/
def noCopiesResponse : Response := ⟨404, .error "no available copies of this book"⟩

/-- The 409 response of `BorrowBook`. -/
def duplicateLoanResponse : Response :=
  ⟨409, .error "you already have an active borrow for this book"⟩

/-- The 404 response of `ReturnBook`. -/
def borrowNotFoundResponse : Response :=
  ⟨404, .error "active borrow record not found for this user"⟩

/-! ## Sequences of borrow calls for one title -/

/-- One `BorrowBook` call of a sequence for a fixed title: the caller, the `days` field
and the environment of the call. -/
structure BorrowCall where
  userID : Option Nat
  Days : Int
  env : BorrowEnv
deriving DecidableEq, Repr

/-- The calls of `ks` for title `t`, each run to its end on the store the one before
left: the responses in order, and the final store. -/
def borrowSeq (t : Nat) : Store → List BorrowCall → List Response × Store
  | s, [] => ([], s)
  | s, k :: ks =>
    let r := BorrowBook s k.userID ⟨t, k.Days⟩ k.env
    let rest := borrowSeq t r.2 ks
    (r.1 :: rest.1, rest.2)

/-- The number of copies of title `t` with status available. -/
def availableCount (t : Nat) (s : Store) : Nat :=
  s.bookCopies.countP (fun c => decide (c.BookID = t) && decide (c.Status = .CopyAvailable))

/-- The number of 200 responses. -/
def successCount (rs : List Response) : Nat :=
  rs.countP (fun r => decide (r.code = 200))

/-! ## Invariants and runs of calls -/

/-- The number of borrows with status active that reference the copy with key `copyID`. -/
def activeRefs (s : Store) (copyID : Nat) : Nat :=
  s.borrows.countP (fun b => decide (b.BookCopyID = copyID) && decide (b.Status = .BorrowActive))

/-- Every copy is referenced by at most one active borrow, and has status borrowed
exactly when one active borrow references it. -/
def copyLoanAgreement (s : Store) : Prop :=
  ∀ c ∈ s.bookCopies, activeRefs s c.ID ≤ 1 ∧ (c.Status = .CopyBorrowed ↔ activeRefs s c.ID = 1)

instance (s : Store) : Decidable (copyLoanAgreement s) := by
  unfold copyLoanAgreement; infer_instance

/-- The number of active loans of user `u` on copies of title `t`. -/
def loansOf (s : Store) (u t : Nat) : Nat :=
  s.borrows.countP (fun b => decide (activeLoanOn s u t b))

/-- No user has two active loans on copies of one title. -/
def oneLoanPerTitle (s : Store) : Prop :=
  ∀ u t, loansOf s u t ≤ 1

/-- A call of the lending engine with its context, request and environment. -/
inductive Call where
  | borrow (userID : Option Nat) (req : BorrowBookRequest) (env : BorrowEnv)
  | giveBack (userID : Option Nat) (req : ReturnBookRequest) (env : ReturnEnv)
deriving DecidableEq, Repr

/-- The persisted store after one call. -/
def Call.run (s : Store) : Call → Store
  | .borrow userID req env => (BorrowBook s userID req env).2
  | .giveBack userID req env => (ReturnBook s userID req env).2

/-- The persisted store after a sequence of calls, each run to its end. -/
def runCalls (s : Store) (cs : List Call) : Store :=
  cs.foldl Call.run s

/-! ## Sample data -/

/-- Title 1 with two copies, both on the shelf, and no loans. -/
def shelfStore : Store :=
  { bookCopies := [⟨1, 1, .CopyAvailable⟩, ⟨2, 1, .CopyAvailable⟩], borrows := [] }

/-- A request for title 1 for seven days. -/
def weekRequest : BorrowBookRequest := ⟨1, 7⟩

/-- A `BorrowBook` environment in which every statement returns without error. -/
def calmBorrowEnv : BorrowEnv :=
  { firstFails := false, countFails := false, saveFails := false, createFails := false,
    commitFails := false, now1 := 1000, now2 := 1001 }

/-- A `ReturnBook` environment in which every statement returns without error. -/
def calmReturnEnv : ReturnEnv :=
  { firstBorrowFails := false, saveBorrowFails := false, firstCopyFails := false,
    saveCopyFails := false, commitFails := false, now := 2000 }

/-- User 1 holds copy 1 of title 1; copy 2 is on the shelf. -/
def loanedStore : Store :=
  { bookCopies := [⟨1, 1, .CopyBorrowed⟩, ⟨2, 1, .CopyAvailable⟩],
    borrows := [⟨1, 1, 1, 1000, 1001 + 7 * 86400000000000, none, .BorrowActive⟩] }

/-- A `BorrowBook` environment in which the commit fails. -/
def commitFailsBorrowEnv : BorrowEnv := { calmBorrowEnv with commitFails := true }

/-- A `BorrowBook` environment in which the count of active loans returns an error. -/
def countFailsBorrowEnv : BorrowEnv := { calmBorrowEnv with countFails := true }

/-- A `ReturnBook` environment in which the save of the copy fails. -/
def saveCopyFailsReturnEnv : ReturnEnv := { calmReturnEnv with saveCopyFails := true }

/-- Title 1 has a borrowed, a lost and a shelved-for-repair copy; user 1 holds copy 1. -/
def noShelfStore : Store :=
  { bookCopies := [⟨1, 1, .CopyBorrowed⟩, ⟨2, 1, .CopyLost⟩, ⟨3, 1, .CopyMaintenance⟩],
    borrows := [⟨1, 1, 1, 1000, 1001 + 7 * 86400000000000, none, .BorrowActive⟩] }

/-- Copy 2 of title 1 is on the shelf; copy 1 of title 1 is soft-deleted while user 1
still holds it. -/
def removedCopyStore : Store :=
  { bookCopies := [⟨2, 1, .CopyAvailable⟩],
    borrows := [⟨1, 1, 1, 1000, 1001 + 7 * 86400000000000, none, .BorrowActive⟩],
    deletedCopies := [⟨1, 1, .CopyBorrowed⟩] }

/-- Copy 1 of title 1 was reported lost while user 1 still holds it. -/
def lostOnLoanStore : Store :=
  { bookCopies := [⟨1, 1, .CopyLost⟩],
    borrows := [⟨1, 1, 1, 1000, 1001 + 7 * 86400000000000, none, .BorrowActive⟩] }

/-! ## Token authenticator (`middleware/jwt.go`, `controllers/user_controller.go`,
`controllers/auth_controller.go`) -/

/-- The type `models.UserRole` with its two constants. -/
inductive UserRole where
  | RoleAdmin
  | RoleUser
deriving DecidableEq, Repr

/-- The hash of a signing method: SHA-256, SHA-384 or SHA-512. -/
inductive HashSize where
  | h256
  | h384
  | h512
deriving DecidableEq, Repr

/-- The signing methods the package `jwt/v5` registers: `HS*` (`SigningMethodHMAC`),
`RS*`, `PS*`, `ES*`, `EdDSA` and `none`. -/
inductive SigningMethod where
  | HMAC (h : HashSize)
  | RSA (h : HashSize)
  | RSAPSS (h : HashSize)
  | ECDSA (h : HashSize)
  | Ed25519
  | unsecured
deriving DecidableEq, Repr

/-- The struct `Claims`: `user_id`, `role` and the registered claims; the three dates
are instants in nanoseconds and may be absent in a presented token. -/
structure Claims where
  UserID : Nat
  Role : UserRole
  ExpiresAt : Option Int
  IssuedAt : Option Int
  NotBefore : Option Int
  Issuer : String
  Subject : String
deriving DecidableEq, Repr

/-- A signature, symbolically: the method and key it was computed with and the signing
input (the header names the same method, so the claims stand for the input). -/
structure Signature where
  method : SigningMethod
  key : List Nat
  claims : Claims
deriving DecidableEq, Repr

/-- The three segments of a token: the method the header's `alg` names (`none` when
no method is registered under that name), the claims, the signature. -/
structure Token where
  alg : Option SigningMethod
  claims : Claims
  sig : Signature
deriving DecidableEq, Repr

/-- A presented token string: three decodable segments, or anything else. -/
inductive TokenString where
  | garbage
  | segments (t : Token)
deriving DecidableEq, Repr

/-- The method `SigningMethod.Sign` on a signing input with a byte key. -/
def sign (m : SigningMethod) (key : List Nat) (claims : Claims) : Signature :=
  ⟨m, key, claims⟩

/-- The constructor `jwt.NewNumericDate`: the instant truncated to whole seconds. -/
def NewNumericDate (t : Int) : Int :=
  t - t % 1000000000

/-- The duration `time.Hour` in nanoseconds. -/
def Hour : Int := 3600000000000

/-- The method `Time.Unix`: whole seconds since the epoch. -/
def Unix (t : Int) : Int :=
  t / 1000000000

/-- The readings of `time.Now()` inside one `GenerateToken` call, in the order of the
calls: for `expirationTime`, for `IssuedAt`, for `NotBefore`. -/
structure TokenClock where
  now1 : Int
  now2 : Int
  now3 : Int
deriving DecidableEq, Repr

/-- The claims `GenerateToken` builds, lines 28-39: expiry seven days after the first
reading of the clock. -/
def newClaims (clock : TokenClock) (userID : Nat) (role : UserRole) : Claims :=
  let expirationTime := clock.now1 + 7 * 24 * Hour
  { UserID := userID, Role := role,
    ExpiresAt := some (NewNumericDate expirationTime),
    IssuedAt := some (NewNumericDate clock.now2),
    NotBefore := some (NewNumericDate clock.now3),
    Issuer := "library-api", Subject := toString userID }

/-- The function `GenerateToken`, lines 26-47: the claims signed with HS256 under the
secret (`SignedString` has no error with a byte key). -/
def GenerateToken (jwtSecret : List Nat) (clock : TokenClock) (userID : Nat)
    (role : UserRole) : TokenString :=
  let claims := newClaims clock userID role
  .segments ⟨some (.HMAC .h256), claims, sign (.HMAC .h256) jwtSecret claims⟩

/-- The key function `ParseToken` passes to `ParseWithClaims`, lines 52-57: the secret for
a method of type `*jwt.SigningMethodHMAC`, an error for every other method. -/
def keyFunc (jwtSecret : List Nat) : SigningMethod → Option (List Nat)
  | .HMAC _ => some jwtSecret
  | _ => none

/-- The time checks `ParseWithClaims` runs on the registered claims (package `jwt/v5`, a
dependency outside the repository; RFC 7519, 4.1.4 and 4.1.5): with `exp` present the
current instant must be before it, with `nbf` present it must not be before `nbf`. -/
def validateClaims (now : Int) (c : Claims) : Bool :=
  (match c.ExpiresAt with
    | none => true
    | some exp => decide (now < exp)) &&
  (match c.NotBefore with
    | none => true
    | some nbf => decide (nbf ≤ now))

/-- The function `ParseToken`, lines 50-68, at the instant `now`: `ParseWithClaims`
splits the string, looks the method up, asks the key function for the key, verifies the
signature with that method and key and checks the dates; `none` stands for an error. -/
def ParseToken (jwtSecret : List Nat) (now : Int) : TokenString → Option Claims
  | .garbage => none
  | .segments t =>
    match t.alg with
    | none => none
    | some m =>
      match keyFunc jwtSecret m with
      | none => none
      | some key =>
        if t.sig = sign m key t.claims then
          if validateClaims now t.claims = true then some t.claims else none
        else none

/-- The struct `config.Config`, the fields the core reads. -/
structure Config where
  JWTExpiryHours : Int
  RateLimitRPS : Nat
  RateLimitBurst : Nat
deriving DecidableEq, Repr

/-- The configuration `LoadConfig` gives when the environment sets none of the three
variables: 72 hours, 10 requests per second, burst 20. -/
def defaultConfig : Config :=
  { JWTExpiryHours := 72, RateLimitRPS := 10, RateLimitBurst := 20 }

/-- The row type `models.User`, the columns the login handlers read. -/
structure User where
  ID : Nat
  Role : UserRole
deriving DecidableEq, Repr

/-- The environment of one `Login` call: whether binding fails, the row the lookup by
email gives (`none` on an error), whether `bcrypt.CompareHashAndPassword` accepts, the
loaded configuration, the reading of `time.Now()` in `Login`, and the readings inside
`GenerateToken`. -/
structure LoginEnv where
  bindFails : Bool
  user : Option User
  passwordOK : Bool
  cfg : Config
  now : Int
  clock : TokenClock
deriving DecidableEq, Repr

/-- The struct `LoginResponse`: the token, the user and `expires_at` in Unix seconds. -/
structure LoginResponse where
  Token : TokenString
  UserID : Nat
  Role : UserRole
  ExpiresAt : Int
deriving DecidableEq, Repr

/-- The handler `Login`, lines 84-128 of `user_controller.go`: status code and, on 200,
the response body. -/
def Login (jwtSecret : List Nat) (env : LoginEnv) : Nat × Option LoginResponse :=
  if env.bindFails then (400, none)
  else
    match env.user with
    | none => (401, none)
    | some user =>
      if env.passwordOK = false then (401, none)
      else
        let expirationTime := env.now + env.cfg.JWTExpiryHours * Hour
        let tokenString := GenerateToken jwtSecret env.clock user.ID user.Role
        (200, some { Token := tokenString, UserID := user.ID, Role := user.Role,
                     ExpiresAt := Unix expirationTime })

/-- The environment of one `GoogleLoginCallback` call: which of the four steps towards
the user info fail, the row the lookup gives and the row `Create` gives (`none` on an
error), the loaded configuration and the readings of the clock. -/
structure GoogleEnv where
  exchangeFails : Bool
  getFails : Bool
  readFails : Bool
  unmarshalFails : Bool
  found : Option User
  created : Option User
  cfg : Config
  now : Int
  clock : TokenClock
deriving DecidableEq, Repr

/-- The object `GoogleLoginCallback` writes on 200: `expires_at` is the instant itself. -/
structure GoogleResponse where
  Token : TokenString
  UserID : Nat
  Role : UserRole
  ExpiresAt : Int
deriving DecidableEq, Repr

/-- The handler `GoogleLoginCallback`, lines 48-118 of `auth_controller.go`. -/
def GoogleLoginCallback (jwtSecret : List Nat) (env : GoogleEnv) :
    Nat × Option GoogleResponse :=
  if env.exchangeFails then (500, none)
  else if env.getFails then (500, none)
  else if env.readFails then (500, none)
  else if env.unmarshalFails then (500, none)
  else
    match (match env.found with
           | some u => some u
           | none => env.created) with
    | none => (500, none)
    | some user =>
      let expirationTime := env.now + env.cfg.JWTExpiryHours * Hour
      let jwtToken := GenerateToken jwtSecret env.clock user.ID user.Role
      (200, some { Token := jwtToken, UserID := user.ID, Role := user.Role,
                   ExpiresAt := expirationTime })

/-- The claims of a token string, when it has three segments. -/
def TokenString.claims? : TokenString → Option Claims
  | .garbage => none
  | .segments t => some t.claims

/-- A clock that reads the same instant three times. -/
def stillClock (t : Int) : TokenClock := ⟨t, t, t⟩

/-- The secret of the samples. -/
def sampleSecret : List Nat := [115, 51, 99, 114, 51, 116]

/-- A login of user 7 at instant 0 under the default configuration. -/
def sampleLoginEnv : LoginEnv :=
  { bindFails := false, user := some ⟨7, .RoleUser⟩, passwordOK := true, cfg := defaultConfig,
    now := 0, clock := stillClock 0 }

/-- A Google login of user 7 at instant 0 under the default configuration. -/
def sampleGoogleEnv : GoogleEnv :=
  { exchangeFails := false, getFails := false, readFails := false, unmarshalFails := false,
    found := some ⟨7, .RoleUser⟩, created := none, cfg := defaultConfig, now := 0,
    clock := stillClock 0 }

/-- A token for user 7 with method HS384, signed with HS384 under the secret of the
samples, with the dates of a token issued at instant 0. -/
def hs384Token : TokenString :=
  .segments ⟨some (.HMAC .h384), newClaims (stillClock 0) 7 .RoleUser,
    sign (.HMAC .h384) sampleSecret (newClaims (stillClock 0) 7 .RoleUser)⟩

/-- A token with method RS256 that carries the HS256 signature of its claims under the
secret of the samples. -/
def rs256Token : Token :=
  ⟨some (.RSA .h256), newClaims (stillClock 0) 7 .RoleUser,
    sign (.HMAC .h256) sampleSecret (newClaims (stillClock 0) 7 .RoleUser)⟩

/-! ## Rate limiter (`middleware/rate_limit.go`) -/

/-- One token, counted in billionths: a bucket filled at `r` tokens per second gains
`r` billionths per nanosecond. -/
def tokenUnit : Int := 1000000000

/-- Modelled from the spec: the token bucket `rate.Limiter` of `golang.org/x/time/rate`,
which the repository imports and does not contain.  The bucket has a rate in tokens per
second, a burst capacity, its tokens (in billionths, counted exactly) and the instant of
its last admitted request. -/
structure Limiter where
  limit : Nat
  burst : Nat
  tokens : Int
  last : Int
deriving DecidableEq, Repr

/-- Modelled from the spec: `rate.NewLimiter`, which the repository does not contain:
"create one with a full burst allowance". -/
def NewLimiter (r b : Nat) : Limiter :=
  { limit := r, burst := b, tokens := b * tokenUnit, last := 0 }

/-- Modelled from the spec: the refill step of `rate.Limiter`, which the repository does
not contain: "refill the bucket proportionally to elapsed wall-clock time since last check
(monotonic clock; never decreases), capped at burst capacity".  The tokens at `now`. -/
def Limiter.advance (lim : Limiter) (now : Int) : Int :=
  min (lim.burst * tokenUnit) (lim.tokens + max 0 (now - lim.last) * lim.limit)

/-- Modelled from the spec: `rate.Limiter.Allow`, which the repository does not contain:
"if at least one token available, consume one" and let the request pass; "otherwise
return reject with no mutation". -/
def Limiter.Allow (lim : Limiter) (now : Int) : Bool × Limiter :=
  if tokenUnit ≤ lim.advance now then
    (true, { lim with tokens := lim.advance now - tokenUnit, last := now })
  else
    (false, lim)

/-- The struct `IPRateLimiter`: the map from client address to bucket and the two
configured parameters. -/
structure IPRateLimiter where
  ips : String → Option Limiter
  rps : Nat
  burst : Nat

/-- The function `InitRateLimiter`, lines 23-30: an empty map and the configured
parameters. -/
def InitRateLimiter (cfg : Config) : IPRateLimiter :=
  { ips := fun _ => none, rps := cfg.RateLimitRPS, burst := cfg.RateLimitBurst }

/-- The method `addIP`, lines 33-44: the bucket of the address, created and stored when
there is none. -/
def IPRateLimiter.addIP (i : IPRateLimiter) (ip : String) : Limiter × IPRateLimiter :=
  match i.ips ip with
  | some lim => (lim, i)
  | none =>
    let lim := NewLimiter i.rps i.burst
    (lim, { i with ips := fun a => if a = ip then some lim else i.ips a })

/-- The method `getLimiter`, lines 47-56. -/
def IPRateLimiter.getLimiter (i : IPRateLimiter) (ip : String) : Limiter × IPRateLimiter :=
  match i.ips ip with
  | none => i.addIP ip
  | some lim => (lim, i)

/-- A call of a method with pointer receiver on the bucket `old`, which leaves it as
`new`, seen from the map: the map holds pointers, one bucket per entry, so the entry under
`ip` shows `new` exactly when that entry is the bucket the call was made on.  The map
itself is not written: a bucket it does not hold stays out of it. -/
def IPRateLimiter.through (i : IPRateLimiter) (ip : String) (old new : Limiter) :
    IPRateLimiter :=
  { i with ips := fun a => if a = ip ∧ i.ips ip = some old then some new else i.ips a }

/-- The handler of `RateLimitMiddleware`, lines 59-80, for a request of client `ip` at
instant `now`: whether the request goes on to `c.Next()`, and the limiter after it.
`lim.Allow()` works on the bucket `getLimiter` returned; the map changes in `addIP` only. -/
def RateLimitMiddleware (limiter : Option IPRateLimiter) (ip : String) (now : Int) :
    Bool × Option IPRateLimiter :=
  match limiter with
  | none => (true, none)
  | some l =>
    let got := l.getLimiter ip
    let res := got.1.Allow now
    (res.1, some (got.2.through ip got.1 res.2))

/-- The requests of a list, each with its client address and arrival instant, served one
after the other: the answers in order and the limiter after the last. -/
def serve : Option IPRateLimiter → List (String × Int) → List Bool × Option IPRateLimiter
  | l, [] => ([], l)
  | l, q :: qs =>
    let r := RateLimitMiddleware l q.1 q.2
    let rest := serve r.2 qs
    (r.1 :: rest.1, rest.2)

/-- The number of requests of client `ip` in the list that are admitted. -/
def admittedCount (ip : String) : Option IPRateLimiter → List (String × Int) → Nat
  | _, [] => 0
  | l, q :: qs =>
    let r := RateLimitMiddleware l q.1 q.2
    (if q.1 = ip ∧ r.1 = true then 1 else 0) + admittedCount ip r.2 qs

/-- The bucket the middleware uses for client `ip`: the stored one, or a new one. -/
def bucketOf (l : IPRateLimiter) (ip : String) : Limiter :=
  (l.getLimiter ip).1

/-- The limiter after one request of client `a` at instant `now`. -/
def stepLimiter (l : IPRateLimiter) (a : String) (now : Int) : IPRateLimiter :=
  (l.getLimiter a).2.through a (l.getLimiter a).1 ((l.getLimiter a).1.Allow now).2

/-- A `BorrowBook` environment in which every storage statement returns an error. -/
def allFailBorrowEnv : BorrowEnv :=
  { firstFails := true, countFails := true, saveFails := true, createFails := true,
    commitFails := true, now1 := 1000, now2 := 1001 }

/-! ## Storage statements: basic facts -/

theorem leastByID_eq_none {α : Type} (key : α → Nat) (l : List α) :
    leastByID key l = none ↔ l = [] := by
  cases l with
  | nil => simp [leastByID]
  | cons r rs =>
    simp only [leastByID]
    cases h : leastByID key rs with
    | none => simp
    | some m => by_cases hk : key m < key r <;> simp [hk]

theorem leastByID_mem {α : Type} (key : α → Nat) (l : List α) (m : α)
    (h : leastByID key l = some m) : m ∈ l := by
  induction l generalizing m with
  | nil => simp [leastByID] at h
  | cons r rs ih =>
    simp only [leastByID] at h
    cases h1 : leastByID key rs with
    | none =>
      rw [h1] at h
      simp at h
      simp [h]
    | some m1 =>
      rw [h1] at h
      by_cases hk : key m1 < key r
      · simp [hk] at h
        subst h
        exact List.mem_cons_of_mem _ (ih _ h1)
      · simp [hk] at h
        simp [h]

theorem firstAvailableCopy_some {t : Nat} {rows : List BookCopy} {c : BookCopy}
    (h : firstAvailableCopy t rows = some c) :
    c ∈ rows ∧ c.BookID = t ∧ c.Status = .CopyAvailable := by
  have hm := leastByID_mem _ _ _ h
  simpa [List.mem_filter] using hm

theorem firstAvailableCopy_none {t : Nat} {rows : List BookCopy} :
    firstAvailableCopy t rows = none ↔
      ∀ c ∈ rows, ¬ (c.BookID = t ∧ c.Status = .CopyAvailable) := by
  unfold firstAvailableCopy
  rw [leastByID_eq_none, List.filter_eq_nil_iff]
  simp

theorem firstActiveBorrow_some {id u : Nat} {rows : List Borrow} {b : Borrow}
    (h : firstActiveBorrow id u rows = some b) :
    b ∈ rows ∧ b.ID = id ∧ b.UserID = u ∧ b.Status = .BorrowActive := by
  have hm := leastByID_mem _ _ _ h
  simpa [List.mem_filter, and_assoc] using hm

theorem firstActiveBorrow_none {id u : Nat} {rows : List Borrow} :
    firstActiveBorrow id u rows = none ↔
      ∀ b ∈ rows, ¬ (b.ID = id ∧ b.UserID = u ∧ b.Status = .BorrowActive) := by
  unfold firstActiveBorrow
  rw [leastByID_eq_none, List.filter_eq_nil_iff]
  simp

theorem firstCopyByID_some {id : Nat} {rows : List BookCopy} {c : BookCopy}
    (h : firstCopyByID id rows = some c) : c ∈ rows ∧ c.ID = id := by
  have hm := leastByID_mem _ _ _ h
  simpa [List.mem_filter] using hm

theorem firstCopyByID_none {id : Nat} {rows : List BookCopy} :
    firstCopyByID id rows = none ↔ ∀ c ∈ rows, c.ID ≠ id := by
  unfold firstCopyByID
  rw [leastByID_eq_none, List.filter_eq_nil_iff]
  simp

/-! ## The two outcomes of a call -/

/-- A `BorrowBook` call either answers with a code other than 200 and leaves the
persisted store as it was, or it selected an available copy, passed the count
check and committed `borrowedStore`. -/
theorem BorrowBook_outcome (db : Store) (userID : Option Nat) (req : BorrowBookRequest)
    (env : BorrowEnv) :
    ((BorrowBook db userID req env).1.code ≠ 200 ∧ (BorrowBook db userID req env).2 = db) ∨
    (∃ uid c, userID = some uid ∧ bindBorrowBookRequest req = true ∧
      env.firstFails = false ∧ firstAvailableCopy req.BookID db.bookCopies = some c ∧
      (env.countFails = true ∨ countActiveBorrows uid req.BookID db = 0) ∧
      env.saveFails = false ∧ env.createFails = false ∧ env.commitFails = false ∧
      BorrowBook db userID req env =
        (⟨200, .borrow (newBorrow db uid c req env)⟩, borrowedStore db uid c req env)) := by
  unfold BorrowBook
  by_cases hb : bindBorrowBookRequest req = false
  · simp [hb]
  · simp only [hb, if_false]
    cases userID with
    | none => simp
    | some uid =>
      by_cases hf : env.firstFails = true
      · simp [hf, Begin, Tx.Rollback]
      · cases hfa : firstAvailableCopy req.BookID db.bookCopies with
        | none => simp [hf, hfa, Begin, Tx.Rollback]
        | some c =>
          by_cases hc : env.countFails = true <;>
          by_cases hs : env.saveFails = true <;>
          by_cases hcr : env.createFails = true <;>
          by_cases hco : env.commitFails = true <;>
          by_cases hn : countActiveBorrows uid req.BookID db = 0 <;>
          simp [hf, hfa, hc, hs, hcr, hco, hn, Begin, Tx.Rollback, Tx.Commit, createBorrow,
            newBorrow, borrowedStore, Nat.pos_iff_ne_zero]

/-- A `ReturnBook` call either answers with a code other than 200 and leaves the
persisted store as it was, or it found the active borrow and its copy and committed
`returnedStore`. -/
theorem ReturnBook_outcome (db : Store) (userID : Option Nat) (req : ReturnBookRequest)
    (env : ReturnEnv) :
    ((ReturnBook db userID req env).1.code ≠ 200 ∧ (ReturnBook db userID req env).2 = db) ∨
    (∃ uid b c, userID = some uid ∧ bindReturnBookRequest req = true ∧
      firstActiveBorrow req.BorrowID uid db.borrows = some b ∧
      firstCopyByID b.BookCopyID db.bookCopies = some c ∧ env.noFault ∧
      ReturnBook db userID req env =
        (⟨200, .message "book returned successfully"⟩, returnedStore db b c env)) := by
  unfold ReturnBook
  by_cases hb : bindReturnBookRequest req = false
  · simp [hb]
  · simp only [hb, if_false]
    cases userID with
    | none => simp
    | some uid =>
      by_cases hf : env.firstBorrowFails = true
      · simp [hf, Begin, Tx.Rollback]
      · cases hfa : firstActiveBorrow req.BorrowID uid db.borrows with
        | none => simp [hf, hfa, Begin, Tx.Rollback]
        | some b =>
          by_cases hs : env.saveBorrowFails = true
          · simp [hf, hfa, hs, Begin, Tx.Rollback]
          · by_cases hfc : env.firstCopyFails = true
            · simp [hf, hfa, hs, hfc, Begin, Tx.Rollback]
            · cases hc : firstCopyByID b.BookCopyID db.bookCopies with
              | none => simp [hf, hfa, hs, hfc, hc, Begin, Tx.Rollback]
              | some c =>
                by_cases hsc : env.saveCopyFails = true <;>
                by_cases hco : env.commitFails = true <;>
                simp [hf, hfa, hs, hfc, hc, hsc, hco, Begin, Tx.Rollback, Tx.Commit,
                  returnedStore, ReturnEnv.noFault]

/-! ## Facts used by several claims -/

theorem countActiveBorrows_eq_zero {db : Store} {u t : Nat} :
    countActiveBorrows u t db = 0 ↔ ∀ b ∈ db.borrows, ¬ activeLoanOn db u t b := by
  unfold countActiveBorrows activeLoanOn copyIDsOfBook
  rw [List.length_eq_zero, List.filter_eq_nil_iff]
  constructor
  · intro h b hb hact
    apply h b hb
    obtain ⟨hu, hs, c, hc, hid, ht⟩ := hact
    simp only [Bool.and_eq_true, decide_eq_true_eq, List.mem_map, List.mem_filter]
    exact ⟨⟨hu, c, ⟨hc, ht⟩, hid⟩, hs⟩
  · intro h b hb hact
    apply h b hb
    simp only [Bool.and_eq_true, decide_eq_true_eq, List.mem_map, List.mem_filter] at hact
    obtain ⟨⟨hu, c, ⟨hc, ht⟩, hid⟩, hs⟩ := hact
    exact ⟨hu, hs, c, hc, hid, ht⟩

theorem eq_of_mem_of_ID_eq {rows : List BookCopy} (hnd : (rows.map BookCopy.ID).Nodup)
    {r c : BookCopy} (hr : r ∈ rows) (hc : c ∈ rows) (h : r.ID = c.ID) : r = c :=
  List.inj_on_of_nodup_map hnd hr hc h

theorem le_foldr_max (l : List Nat) (x : Nat) (hx : x ∈ l) : x ≤ l.foldr max 0 := by
  induction l with
  | nil => simp at hx
  | cons a as ih =>
    simp only [List.foldr_cons]
    rcases List.mem_cons.mp hx with h | h
    · subst h; exact le_max_left _ _
    · exact le_trans (ih h) (le_max_right _ _)

theorem lt_nextBorrowID {rows : List Borrow} {b : Borrow} (hb : b ∈ rows) :
    b.ID < nextBorrowID rows := by
  unfold nextBorrowID
  exact Nat.lt_succ_of_le (le_foldr_max _ _ (List.mem_map_of_mem _ hb))

theorem nextBorrowID_not_mem (rows : List Borrow) :
    nextBorrowID rows ∉ rows.map Borrow.ID := by
  intro h
  obtain ⟨b, hb, hid⟩ := List.mem_map.mp h
  have := lt_nextBorrowID hb
  omega

/-- The successful path of `BorrowBook`. -/
theorem BorrowBook_ok {db : Store} {uid : Nat} {req : BorrowBookRequest} {env : BorrowEnv}
    {c : BookCopy} (hreq : bindBorrowBookRequest req = true) (hf : env.firstFails = false)
    (hc : firstAvailableCopy req.BookID db.bookCopies = some c)
    (hn : env.countFails = true ∨ countActiveBorrows uid req.BookID db = 0)
    (hs : env.saveFails = false) (hcr : env.createFails = false)
    (hco : env.commitFails = false) :
    BorrowBook db (some uid) req env =
      (⟨200, .borrow (newBorrow db uid c req env)⟩, borrowedStore db uid c req env) := by
  unfold BorrowBook
  rcases hn with hn | hn <;>
  simp [hreq, hf, hc, hn, hs, hcr, hco, Begin, Tx.Rollback, Tx.Commit, createBorrow,
    newBorrow, borrowedStore]

/-- The path of `BorrowBook` on which the copy lookup gives no row. -/
theorem BorrowBook_noCopies {db : Store} {uid : Nat} {req : BorrowBookRequest}
    {env : BorrowEnv} (hreq : bindBorrowBookRequest req = true)
    (h : env.firstFails = true ∨ firstAvailableCopy req.BookID db.bookCopies = none) :
    BorrowBook db (some uid) req env = (noCopiesResponse, db) := by
  unfold BorrowBook
  rcases h with h | h
  · simp [hreq, h, Begin, Tx.Rollback, noCopiesResponse]
  · by_cases hf : env.firstFails = true <;>
    simp [hreq, h, hf, Begin, Tx.Rollback, noCopiesResponse]

/-- The path of `BorrowBook` on which the count is positive. -/
theorem BorrowBook_duplicate {db : Store} {uid : Nat} {req : BorrowBookRequest}
    {env : BorrowEnv} {c : BookCopy} (hreq : bindBorrowBookRequest req = true)
    (hf : env.firstFails = false)
    (hc : firstAvailableCopy req.BookID db.bookCopies = some c)
    (hcf : env.countFails = false) (hn : countActiveBorrows uid req.BookID db ≠ 0) :
    BorrowBook db (some uid) req env = (duplicateLoanResponse, db) := by
  unfold BorrowBook
  simp [hreq, hf, hc, hcf, hn, Begin, Tx.Rollback, duplicateLoanResponse, Nat.pos_iff_ne_zero]

/-- The successful path of `ReturnBook`. -/
theorem ReturnBook_ok {db : Store} {uid : Nat} {req : ReturnBookRequest} {env : ReturnEnv}
    {b : Borrow} {c : BookCopy} (hreq : bindReturnBookRequest req = true)
    (henv : env.noFault) (hb : firstActiveBorrow req.BorrowID uid db.borrows = some b)
    (hc : firstCopyByID b.BookCopyID db.bookCopies = some c) :
    ReturnBook db (some uid) req env =
      (⟨200, .message "book returned successfully"⟩, returnedStore db b c env) := by
  obtain ⟨h1, h2, h3, h4, h5⟩ := henv
  unfold ReturnBook
  simp [hreq, h1, h2, h3, h4, h5, hb, hc, Begin, Tx.Rollback, Tx.Commit, returnedStore]

/-- The path of `ReturnBook` on which the borrow lookup gives no row. -/
theorem ReturnBook_notFound {db : Store} {uid : Nat} {req : ReturnBookRequest}
    {env : ReturnEnv} (hreq : bindReturnBookRequest req = true)
    (h : env.firstBorrowFails = true ∨ firstActiveBorrow req.BorrowID uid db.borrows = none) :
    ReturnBook db (some uid) req env = (borrowNotFoundResponse, db) := by
  unfold ReturnBook
  rcases h with h | h
  · simp [hreq, h, Begin, Tx.Rollback, borrowNotFoundResponse]
  · by_cases hf : env.firstBorrowFails = true <;>
    simp [hreq, h, hf, Begin, Tx.Rollback, borrowNotFoundResponse]

theorem mem_saveBookCopy_self {rows : List BookCopy} {c c1 : BookCopy} (hc : c ∈ rows)
    (hid : c.ID = c1.ID) : c1 ∈ saveBookCopy c1 rows := by
  unfold saveBookCopy
  exact List.mem_map.mpr ⟨c, hc, by simp [hid]⟩

theorem mem_saveBookCopy {rows : List BookCopy} {c1 x : BookCopy}
    (hx : x ∈ saveBookCopy c1 rows) : x = c1 ∨ (x ∈ rows ∧ x.ID ≠ c1.ID) := by
  unfold saveBookCopy at hx
  obtain ⟨r, hr, hrx⟩ := List.mem_map.mp hx
  by_cases h : r.ID = c1.ID
  · left; simpa [h] using hrx.symm
  · right
    simp only [h, if_false] at hrx
    subst hrx
    exact ⟨hr, h⟩

theorem mem_saveBorrow_self {rows : List Borrow} {b b1 : Borrow} (hb : b ∈ rows)
    (hid : b.ID = b1.ID) : b1 ∈ saveBorrow b1 rows := by
  unfold saveBorrow
  exact List.mem_map.mpr ⟨b, hb, by simp [hid]⟩

theorem mem_saveBorrow {rows : List Borrow} {b1 x : Borrow}
    (hx : x ∈ saveBorrow b1 rows) : x = b1 ∨ (x ∈ rows ∧ x.ID ≠ b1.ID) := by
  unfold saveBorrow at hx
  obtain ⟨r, hr, hrx⟩ := List.mem_map.mp hx
  by_cases h : r.ID = b1.ID
  · left; simpa [h] using hrx.symm
  · right
    simp only [h, if_false] at hrx
    subst hrx
    exact ⟨hr, h⟩

/-- After `BorrowBook` has inserted its record, the lookup by that record's key, the user
and status active gives that record. -/
theorem firstActiveBorrow_newBorrow (db : Store) (u : Nat) (c : BookCopy)
    (req : BorrowBookRequest) (env : BorrowEnv) :
    firstActiveBorrow (newBorrow db u c req env).ID u (db.borrows ++ [newBorrow db u c req env])
      = some (newBorrow db u c req env) := by
  unfold firstActiveBorrow
  have h0 : db.borrows.filter (fun b =>
      decide (b.ID = (newBorrow db u c req env).ID) && decide (b.UserID = u) &&
        decide (b.Status = .BorrowActive)) = [] := by
    rw [List.filter_eq_nil_iff]
    intro b hb
    have := lt_nextBorrowID hb
    have hne : b.ID ≠ (newBorrow db u c req env).ID := by
      simp only [newBorrow]; omega
    simp [hne]
  rw [List.filter_append, h0]
  simp [newBorrow, leastByID]

/-- After `BorrowBook` has saved the selected copy, the lookup by its key gives the
saved row. -/
theorem firstCopyByID_saveBookCopy {rows : List BookCopy} {c c1 : BookCopy} (hc : c ∈ rows)
    (hid : c.ID = c1.ID) : firstCopyByID c1.ID (saveBookCopy c1 rows) = some c1 := by
  cases h : firstCopyByID c1.ID (saveBookCopy c1 rows) with
  | none =>
    exact absurd rfl (firstCopyByID_none.mp h c1 (mem_saveBookCopy_self hc hid))
  | some x =>
    obtain ⟨hx, hxid⟩ := firstCopyByID_some h
    rcases mem_saveBookCopy hx with h1 | ⟨_, h2⟩
    · rw [h1]
    · exact absurd hxid h2

/-! ## C1: a borrow that meets its preconditions -/

/-- C1: when the request passes binding, no storage statement fails, some copy of the
title is available and the user has no active loan on any copy of the title (any row of
`book_copies` with that title, as the duplicate check reads the table: soft-deleted rows
count), `BorrowBook` answers 200 with a record `nb`; exactly the one row `c` (an
available copy of the title) has become borrowed, every other row of `book_copies`, live
or soft-deleted, is untouched, and `borrows` has gained exactly the row `nb`, under a key
not used before, with the user, the key of `c` and status active. -/
theorem C1_borrow_allocates_one_copy (db : Store) (u : Nat) (req : BorrowBookRequest)
    (env : BorrowEnv) (hwf : db.WF) (hreq : bindBorrowBookRequest req = true)
    (henv : env.noFault)
    (havail : ∃ c ∈ db.bookCopies, c.BookID = req.BookID ∧ c.Status = .CopyAvailable)
    (hnone : ∀ b ∈ db.borrows, ¬ activeLoanOn db u req.BookID b) :
    ∃ c nb, c ∈ db.bookCopies ∧ db.bookCopies.count c = 1 ∧ c.BookID = req.BookID ∧
      c.Status = .CopyAvailable ∧
      (BorrowBook db (some u) req env).1 = ⟨200, .borrow nb⟩ ∧
      (BorrowBook db (some u) req env).2.bookCopies =
        db.bookCopies.map (fun r => if r = c then { c with Status := .CopyBorrowed } else r) ∧
      (BorrowBook db (some u) req env).2.borrows = db.borrows ++ [nb] ∧
      nb.ID ∉ db.borrows.map Borrow.ID ∧ nb.UserID = u ∧ nb.BookCopyID = c.ID ∧
      nb.Status = .BorrowActive ∧
      (BorrowBook db (some u) req env).2.deletedCopies = db.deletedCopies := by
  obtain ⟨h1, h2, h3, h4, h5⟩ := henv
  cases hfa : firstAvailableCopy req.BookID db.bookCopies with
  | none =>
    obtain ⟨c, hc, ht, hs⟩ := havail
    exact absurd ⟨ht, hs⟩ (firstAvailableCopy_none.mp hfa c hc)
  | some c =>
    obtain ⟨hc, ht, hs⟩ := firstAvailableCopy_some hfa
    have hcount := countActiveBorrows_eq_zero.mpr hnone
    have hrun := @BorrowBook_ok db u req env c hreq h1 hfa (Or.inr hcount) h3 h4 h5
    have hnd : db.bookCopies.Nodup := List.Nodup.of_map _ hwf.1
    refine ⟨c, newBorrow db u c req env, hc, List.count_eq_one_of_mem hnd hc, ht, hs, ?_, ?_, ?_,
      ?_, rfl, rfl, rfl, ?_⟩
    · rw [hrun]
    · rw [hrun]
      simp only [borrowedStore, saveBookCopy]
      apply List.map_congr_left
      intro r hr
      by_cases hrc : r = c
      · subst hrc; simp
      · have : r.ID ≠ c.ID := fun h => hrc (eq_of_mem_of_ID_eq hwf.1 hr hc h)
        simp [hrc, this]
    · rw [hrun]; rfl
    · exact nextBorrowID_not_mem db.borrows
    · rw [hrun]; rfl

/-- C1 at `removedCopyStore`, where copy 2 of title 1 is on the shelf and the one loan,
on the soft-deleted copy 1, is user 1's: user 5 asks for title 1. -/
theorem C1_borrow_allocates_one_copy_witness :
    ∃ c nb, c ∈ removedCopyStore.bookCopies ∧ removedCopyStore.bookCopies.count c = 1 ∧
      c.BookID = weekRequest.BookID ∧ c.Status = .CopyAvailable ∧
      (BorrowBook removedCopyStore (some 5) weekRequest calmBorrowEnv).1 = ⟨200, .borrow nb⟩ ∧
      (BorrowBook removedCopyStore (some 5) weekRequest calmBorrowEnv).2.bookCopies =
        removedCopyStore.bookCopies.map
          (fun r => if r = c then { c with Status := .CopyBorrowed } else r) ∧
      (BorrowBook removedCopyStore (some 5) weekRequest calmBorrowEnv).2.borrows =
        removedCopyStore.borrows ++ [nb] ∧
      nb.ID ∉ removedCopyStore.borrows.map Borrow.ID ∧ nb.UserID = 5 ∧ nb.BookCopyID = c.ID ∧
      nb.Status = .BorrowActive ∧
      (BorrowBook removedCopyStore (some 5) weekRequest calmBorrowEnv).2.deletedCopies
        = removedCopyStore.deletedCopies :=
  C1_borrow_allocates_one_copy removedCopyStore 5 weekRequest calmBorrowEnv (by decide)
    (by decide) (by decide) (by decide) (by decide)

/-! ## C2: a return that finds no matching loan -/

/-- C2: when the request passes binding and no row of `borrows` has the requested key
together with the caller as user and status active, `ReturnBook` answers with the one
404 response `borrowNotFoundResponse` and leaves the store as it was, whatever the rows
with that key look like (another user, already returned, or no such row) and whatever the
storage statements do. -/
theorem C2_return_not_found_is_uniform (db : Store) (u : Nat) (req : ReturnBookRequest)
    (env : ReturnEnv) (hreq : bindReturnBookRequest req = true)
    (hno : ∀ b ∈ db.borrows,
      ¬ (b.ID = req.BorrowID ∧ b.UserID = u ∧ b.Status = .BorrowActive)) :
    ReturnBook db (some u) req env = (borrowNotFoundResponse, db) :=
  ReturnBook_notFound hreq (Or.inr (firstActiveBorrow_none.mpr hno))

/-- C2 at `loanedStore`: user 2 asks to return loan 1, which belongs to user 1. -/
theorem C2_return_not_found_is_uniform_witness :
    ReturnBook loanedStore (some 2) ⟨1⟩ calmReturnEnv = (borrowNotFoundResponse, loanedStore) :=
  C2_return_not_found_is_uniform loanedStore 2 ⟨1⟩ calmReturnEnv (by decide) (by decide)

/-! ## C3: borrow, then return -/

/-- C3: when `BorrowBook` answers 200, it created a record `b` on a copy `c` that was
available; a `ReturnBook` call for `b.ID` by the same user that follows it (its clock
reading not before the borrow's, no storage statement failing) answers 200, and in the
store it leaves, the row of `c` exists and every row with the key of `c` is available,
the row of `b` exists and every row with the key of `b` has status returned and a return
date that is set and not before `b.BorrowDate`. -/
theorem C3_borrow_then_return (db : Store) (u : Nat) (req : BorrowBookRequest)
    (benv : BorrowEnv) (renv : ReturnEnv)
    (hb : (BorrowBook db (some u) req benv).1.code = 200) (hr : renv.noFault)
    (hclock : benv.now1 ≤ renv.now) :
    ∃ c b s1 s2, BorrowBook db (some u) req benv = (⟨200, .borrow b⟩, s1) ∧
      c ∈ db.bookCopies ∧ c.Status = .CopyAvailable ∧ b.BookCopyID = c.ID ∧ b ∈ s1.borrows ∧
      ReturnBook s1 (some u) ⟨b.ID⟩ renv =
        (⟨200, .message "book returned successfully"⟩, s2) ∧
      (∃ r ∈ s2.bookCopies, r.ID = c.ID) ∧
      (∀ r ∈ s2.bookCopies, r.ID = c.ID → r.Status = .CopyAvailable) ∧
      (∃ r ∈ s2.borrows, r.ID = b.ID) ∧
      (∀ r ∈ s2.borrows, r.ID = b.ID →
        r.Status = .BorrowReturned ∧ ∃ d, r.ReturnDate = some d ∧ b.BorrowDate ≤ d) := by
  rcases BorrowBook_outcome db (some u) req benv with ⟨hne, _⟩ | h
  · exact absurd hb hne
  · obtain ⟨uid, c, hu, _, _, hfa, _, _, _, _, hrun⟩ := h
    cases hu
    obtain ⟨hc, _, hs⟩ := firstAvailableCopy_some hfa
    have hfb := firstActiveBorrow_newBorrow db u c req benv
    have hfc : firstCopyByID (newBorrow db u c req benv).BookCopyID
        (borrowedStore db u c req benv).bookCopies
        = some { c with Status := .CopyBorrowed } :=
      @firstCopyByID_saveBookCopy _ _ { c with Status := .CopyBorrowed } hc rfl
    have hret := @ReturnBook_ok (borrowedStore db u c req benv) u
      ⟨(newBorrow db u c req benv).ID⟩ renv _ _
      (by simp [bindReturnBookRequest, newBorrow, nextBorrowID]) hr hfb hfc
    refine ⟨c, newBorrow db u c req benv, borrowedStore db u c req benv, _, hrun, hc, hs, rfl,
      by simp [borrowedStore], hret, ?_, ?_, ?_, ?_⟩
    · refine ⟨{ c with Status := .CopyAvailable }, ?_, rfl⟩
      exact mem_saveBookCopy_self
        (@mem_saveBookCopy_self _ _ { c with Status := .CopyBorrowed } hc rfl) rfl
    · intro r hr1 hid
      rcases mem_saveBookCopy hr1 with h1 | ⟨_, h2⟩
      · rw [h1]
      · exact absurd hid h2
    · refine ⟨{ newBorrow db u c req benv with
        ReturnDate := some renv.now, Status := .BorrowReturned }, ?_, rfl⟩
      exact mem_saveBorrow_self (b := newBorrow db u c req benv) (by simp [borrowedStore]) rfl
    · intro r hr1 hid
      rcases mem_saveBorrow hr1 with h1 | ⟨_, h2⟩
      · rw [h1]
        exact ⟨rfl, renv.now, rfl, by simpa [newBorrow] using hclock⟩
      · exact absurd hid h2

/-- C3 at `shelfStore`: user 5 borrows title 1 at instant 1000 and returns it at 2000. -/
theorem C3_borrow_then_return_witness :
    ∃ c b s1 s2, BorrowBook shelfStore (some 5) weekRequest calmBorrowEnv
        = (⟨200, .borrow b⟩, s1) ∧
      c ∈ shelfStore.bookCopies ∧ c.Status = .CopyAvailable ∧ b.BookCopyID = c.ID ∧
      b ∈ s1.borrows ∧
      ReturnBook s1 (some 5) ⟨b.ID⟩ calmReturnEnv =
        (⟨200, .message "book returned successfully"⟩, s2) ∧
      (∃ r ∈ s2.bookCopies, r.ID = c.ID) ∧
      (∀ r ∈ s2.bookCopies, r.ID = c.ID → r.Status = .CopyAvailable) ∧
      (∃ r ∈ s2.borrows, r.ID = b.ID) ∧
      (∀ r ∈ s2.borrows, r.ID = b.ID →
        r.Status = .BorrowReturned ∧ ∃ d, r.ReturnDate = some d ∧ b.BorrowDate ≤ d) :=
  C3_borrow_then_return shelfStore 5 weekRequest calmBorrowEnv calmReturnEnv (by decide)
    (by decide) (by decide)

/-! ## C6: a failed call leaves the store as it was -/

/-- C6: a `BorrowBook` call that answers with a code other than 200 leaves the persisted
store equal to the store before the call, and so does a `ReturnBook` call that answers
with a code other than 200, for every store, context, request and pattern of failing
storage statements. -/
theorem C6_failure_leaves_store (db : Store) (userID : Option Nat) (breq : BorrowBookRequest)
    (benv : BorrowEnv) (rreq : ReturnBookRequest) (renv : ReturnEnv) :
    ((BorrowBook db userID breq benv).1.code ≠ 200 → (BorrowBook db userID breq benv).2 = db) ∧
    ((ReturnBook db userID rreq renv).1.code ≠ 200 → (ReturnBook db userID rreq renv).2 = db) := by
  constructor
  · intro h
    rcases BorrowBook_outcome db userID breq benv with ⟨_, h2⟩ | ⟨_, _, _, _, _, _, _, _, _, _, hrun⟩
    · exact h2
    · rw [hrun] at h; exact absurd rfl h
  · intro h
    rcases ReturnBook_outcome db userID rreq renv with ⟨_, h2⟩ | ⟨_, _, _, _, _, _, _, _, hrun⟩
    · exact h2
    · rw [hrun] at h; exact absurd rfl h

/-- C6 at `loanedStore`: user 2 borrows title 1 and the commit fails; user 1 returns
loan 1 and the save of the copy fails. -/
theorem C6_failure_leaves_store_witness :
    (BorrowBook loanedStore (some 2) weekRequest commitFailsBorrowEnv).2 = loanedStore ∧
    (ReturnBook loanedStore (some 1) ⟨1⟩ saveCopyFailsReturnEnv).2 = loanedStore :=
  ⟨(C6_failure_leaves_store loanedStore (some 2) weekRequest commitFailsBorrowEnv ⟨1⟩
      saveCopyFailsReturnEnv).1 (by decide),
   (C6_failure_leaves_store loanedStore (some 1) weekRequest commitFailsBorrowEnv ⟨1⟩
      saveCopyFailsReturnEnv).2 (by decide)⟩

/-! ## C7: no available copy -/

/-- C7: when the request passes binding and no copy of the title has status available,
`BorrowBook` answers with the 404 response `noCopiesResponse` and the store after the call
is the store before it (no borrow created, no copy changed), whatever the storage
statements do. -/
theorem C7_no_available_copy (db : Store) (u : Nat) (req : BorrowBookRequest)
    (env : BorrowEnv) (hreq : bindBorrowBookRequest req = true)
    (hnone : ∀ c ∈ db.bookCopies, c.BookID = req.BookID → c.Status ≠ .CopyAvailable) :
    BorrowBook db (some u) req env = (noCopiesResponse, db) :=
  BorrowBook_noCopies hreq
    (Or.inr (firstAvailableCopy_none.mpr (fun c hc h => hnone c hc h.1 h.2)))

/-- C7 at `noShelfStore`: user 2 asks for title 1. -/
theorem C7_no_available_copy_witness :
    BorrowBook noShelfStore (some 2) weekRequest calmBorrowEnv = (noCopiesResponse, noShelfStore) :=
  C7_no_available_copy noShelfStore 2 weekRequest calmBorrowEnv (by decide) (by decide)

/-! ## C8: a second loan of the same title -/

/-- When the request passes binding, the copy lookup and the count return without error
and some copy of the title is available, then (1) if the user has an active loan on a
copy of the title, `BorrowBook` answers with the 409 response `duplicateLoanResponse` and
the store after the call is the store before it; (2) in particular this is so when the
store is the one left by a `BorrowBook` call of the same user for the same title that
answered 200. -/
theorem duplicate_loan_rejected_of_reads_ok (db : Store) (u : Nat) (req : BorrowBookRequest)
    (env : BorrowEnv) (hreq : bindBorrowBookRequest req = true)
    (hfirst : env.firstFails = false) (hcount : env.countFails = false)
    (havail : ∃ c ∈ db.bookCopies, c.BookID = req.BookID ∧ c.Status = .CopyAvailable) :
    ((∃ b ∈ db.borrows, activeLoanOn db u req.BookID b) →
      BorrowBook db (some u) req env = (duplicateLoanResponse, db)) ∧
    (∀ db0 env0, (BorrowBook db0 (some u) req env0).1.code = 200 →
      (BorrowBook db0 (some u) req env0).2 = db →
      BorrowBook db (some u) req env = (duplicateLoanResponse, db)) := by
  have main : (∃ b ∈ db.borrows, activeLoanOn db u req.BookID b) →
      BorrowBook db (some u) req env = (duplicateLoanResponse, db) := by
    intro hloan
    cases hfa : firstAvailableCopy req.BookID db.bookCopies with
    | none =>
      obtain ⟨c, hc, ht, hs⟩ := havail
      exact absurd ⟨ht, hs⟩ (firstAvailableCopy_none.mp hfa c hc)
    | some c =>
      apply BorrowBook_duplicate hreq hfirst hfa hcount
      intro h0
      obtain ⟨b, hb, hact⟩ := hloan
      exact countActiveBorrows_eq_zero.mp h0 b hb hact
  refine ⟨main, ?_⟩
  intro db0 env0 hok hdb
  apply main
  rcases BorrowBook_outcome db0 (some u) req env0 with ⟨hne, _⟩ | h
  · exact absurd hok hne
  · obtain ⟨uid, c, hu, _, _, hfa, _, _, _, _, hrun⟩ := h
    cases hu
    obtain ⟨hc, ht, _⟩ := firstAvailableCopy_some hfa
    rw [hrun] at hdb
    subst hdb
    refine ⟨newBorrow db0 u c req env0, by simp [borrowedStore], rfl, rfl,
      { c with Status := .CopyBorrowed }, ?_, rfl, ht⟩
    exact List.mem_append_left _
      (@mem_saveBookCopy_self _ _ { c with Status := .CopyBorrowed } hc rfl)

/-- The rejection at `loanedStore`, which is also the store `BorrowBook` leaves at
`shelfStore` for user 1, and at `removedCopyStore`, where the loan of user 1 is on a
soft-deleted copy: user 1 asks for title 1 again while copy 2 is on the shelf. -/
theorem duplicate_loan_rejected_of_reads_ok_sample :
    BorrowBook loanedStore (some 1) weekRequest calmBorrowEnv
        = (duplicateLoanResponse, loanedStore) ∧
    BorrowBook (BorrowBook shelfStore (some 1) weekRequest calmBorrowEnv).2 (some 1) weekRequest
        calmBorrowEnv
      = (duplicateLoanResponse, (BorrowBook shelfStore (some 1) weekRequest calmBorrowEnv).2) ∧
    BorrowBook removedCopyStore (some 1) weekRequest calmBorrowEnv
        = (duplicateLoanResponse, removedCopyStore) :=
  ⟨(duplicate_loan_rejected_of_reads_ok loanedStore 1 weekRequest calmBorrowEnv (by decide)
      (by decide) (by decide) (by decide)).1 (by decide),
   (duplicate_loan_rejected_of_reads_ok
      (BorrowBook shelfStore (some 1) weekRequest calmBorrowEnv).2 1 weekRequest calmBorrowEnv
      (by decide) (by decide) (by decide) (by decide)).2 shelfStore calmBorrowEnv (by decide)
      rfl,
   (duplicate_loan_rejected_of_reads_ok removedCopyStore 1 weekRequest calmBorrowEnv (by decide)
      (by decide) (by decide) (by decide)).1 (by decide)⟩

/-- C8 fails on the code: at `shelfStore` user 1 borrows title 1 and gets copy 1; in the
store this leaves, copy 2 of title 1 is available and user 1 has an active loan on a copy
of title 1; user 1 asks for title 1 again and the count of active loans returns an error,
which `BorrowBook` does not look at: the answer is 200, not the 409 of a duplicate, copy 2
is borrowed too and the store holds two borrows of user 1. -/
theorem C8_count_error_lets_duplicate_through :
    (BorrowBook shelfStore (some 1) weekRequest calmBorrowEnv).1.code = 200 ∧
    (∃ c ∈ (BorrowBook shelfStore (some 1) weekRequest calmBorrowEnv).2.bookCopies,
      c.BookID = weekRequest.BookID ∧ c.Status = .CopyAvailable) ∧
    (∃ b ∈ (BorrowBook shelfStore (some 1) weekRequest calmBorrowEnv).2.borrows,
      activeLoanOn (BorrowBook shelfStore (some 1) weekRequest calmBorrowEnv).2 1
        weekRequest.BookID b) ∧
    (BorrowBook (BorrowBook shelfStore (some 1) weekRequest calmBorrowEnv).2 (some 1)
      weekRequest countFailsBorrowEnv).1.code = 200 ∧
    (BorrowBook (BorrowBook shelfStore (some 1) weekRequest calmBorrowEnv).2 (some 1)
      weekRequest countFailsBorrowEnv).2.bookCopies
      = [⟨1, 1, .CopyBorrowed⟩, ⟨2, 1, .CopyBorrowed⟩] ∧
    (BorrowBook (BorrowBook shelfStore (some 1) weekRequest calmBorrowEnv).2 (some 1)
      weekRequest countFailsBorrowEnv).2.borrows.length = 2 := by
  decide

/-! ## C9: no more loans than available copies -/

theorem countP_map_le_of_imp {α : Type} (p : α → Bool) (f : α → α) (l : List α)
    (h : ∀ r, p (f r) = true → p r = true) : (l.map f).countP p ≤ l.countP p := by
  induction l with
  | nil => simp
  | cons r rs ih =>
    simp only [List.map_cons, List.countP_cons]
    have : (if p (f r) = true then 1 else 0) ≤ (if p r = true then 1 else 0) := by
      by_cases h1 : p (f r) = true
      · simp [h1, h r h1]
      · simp [h1]
    omega

theorem countP_map_lt_of_imp {α : Type} (p : α → Bool) (f : α → α) (l : List α)
    (h : ∀ r, p (f r) = true → p r = true) (c : α) (hc : c ∈ l) (hpc : p c = true)
    (hfc : p (f c) = false) : (l.map f).countP p + 1 ≤ l.countP p := by
  induction l with
  | nil => simp at hc
  | cons r rs ih =>
    simp only [List.map_cons, List.countP_cons]
    rcases List.mem_cons.mp hc with h1 | h1
    · subst h1
      have h3 := countP_map_le_of_imp p f rs h
      rw [if_pos hpc, if_neg (by simp [hfc])]
      omega
    · have := ih h1
      have : (if p (f r) = true then 1 else 0) ≤ (if p r = true then 1 else 0) := by
        by_cases h2 : p (f r) = true
        · simp [h2, h r h2]
        · simp [h2]
      omega

/-- A call for title `t` that answers 200 uses up at least one available copy of `t`;
any other call leaves their number as it was. -/
theorem availableCount_BorrowBook (t : Nat) (s : Store) (k : BorrowCall) :
    availableCount t (BorrowBook s k.userID ⟨t, k.Days⟩ k.env).2 +
      (if (BorrowBook s k.userID ⟨t, k.Days⟩ k.env).1.code = 200 then 1 else 0)
      ≤ availableCount t s := by
  rcases BorrowBook_outcome s k.userID ⟨t, k.Days⟩ k.env with ⟨hne, hs⟩ | h
  · rw [hs]; simp [hne]
  · obtain ⟨uid, c, _, _, _, hfa, _, _, _, _, hrun⟩ := h
    obtain ⟨hc, ht, hst⟩ := firstAvailableCopy_some hfa
    rw [hrun]
    simp only [if_true, availableCount, borrowedStore, saveBookCopy]
    apply countP_map_lt_of_imp _ _ _ _ c hc
    · simp at ht; simp [ht, hst]
    · simp
    · intro r hr
      by_cases hid : r.ID = c.ID
      · simp [hid] at hr
      · simpa [hid] using hr

theorem successCount_borrowSeq (t : Nat) (ks : List BorrowCall) (s : Store) :
    successCount (borrowSeq t s ks).1 + availableCount t (borrowSeq t s ks).2
      ≤ availableCount t s := by
  induction ks generalizing s with
  | nil => simp [borrowSeq, successCount]
  | cons k ks ih =>
    have h1 := availableCount_BorrowBook t s k
    have h2 := ih (BorrowBook s k.userID ⟨t, k.Days⟩ k.env).2
    simp only [borrowSeq, successCount, List.countP_cons, decide_eq_true_eq] at h2 ⊢
    omega

theorem borrowSeq_append (t : Nat) (pre post : List BorrowCall) (s : Store) :
    borrowSeq t s (pre ++ post) =
      ((borrowSeq t s pre).1 ++ (borrowSeq t (borrowSeq t s pre).2 post).1,
        (borrowSeq t (borrowSeq t s pre).2 post).2) := by
  induction pre generalizing s with
  | nil => simp [borrowSeq]
  | cons k ks ih => simp [borrowSeq, ih]

theorem borrowSeq_of_none_available (t : Nat) (ks : List BorrowCall) (s : Store)
    (h0 : availableCount t s = 0)
    (hv : ∀ k ∈ ks, k.userID.isSome = true ∧ bindBorrowBookRequest ⟨t, k.Days⟩ = true) :
    ∀ r ∈ (borrowSeq t s ks).1, r = noCopiesResponse := by
  induction ks with
  | nil => simp [borrowSeq]
  | cons k ks ih =>
    obtain ⟨hu, hbind⟩ := hv k (List.mem_cons_self _ _)
    obtain ⟨uid, huid⟩ := Option.isSome_iff_exists.mp hu
    have hnone : firstAvailableCopy t s.bookCopies = none := by
      rw [firstAvailableCopy_none]
      intro c hc hp
      have := (List.countP_eq_zero.mp h0) c hc
      simp [hp.1, hp.2] at this
    have hrun : BorrowBook s k.userID ⟨t, k.Days⟩ k.env = (noCopiesResponse, s) := by
      rw [huid]
      exact BorrowBook_noCopies hbind (Or.inr hnone)
    intro r hr
    simp only [borrowSeq, hrun, List.mem_cons] at hr
    rcases hr with h | h
    · exact h
    · exact ih (fun k hk => hv k (List.mem_cons_of_mem _ hk)) r h

/-- C9: run any sequence `pre ++ post` of `BorrowBook` calls for title `t` from a store
with `N = availableCount t db` available copies of `t`.  The responses are those of `pre`
followed by those of `post`; at most `N` of them are 200; and if `N` calls of `pre` have
answered 200, every call of `post` (each passing binding with a user in the context)
answers with the 404 response `noCopiesResponse`. -/
theorem C9_at_most_N_borrows (t : Nat) (db : Store) (pre post : List BorrowCall) :
    (borrowSeq t db (pre ++ post)).1 =
      (borrowSeq t db pre).1 ++ (borrowSeq t (borrowSeq t db pre).2 post).1 ∧
    successCount (borrowSeq t db (pre ++ post)).1 ≤ availableCount t db ∧
    (successCount (borrowSeq t db pre).1 = availableCount t db →
      (∀ k ∈ post, k.userID.isSome = true ∧ bindBorrowBookRequest ⟨t, k.Days⟩ = true) →
      ∀ r ∈ (borrowSeq t (borrowSeq t db pre).2 post).1, r = noCopiesResponse) := by
  refine ⟨by rw [borrowSeq_append], ?_, ?_⟩
  · have := successCount_borrowSeq t (pre ++ post) db
    omega
  · intro hN hv
    have := successCount_borrowSeq t pre db
    exact borrowSeq_of_none_available t post _ (by omega) hv

/-- C9 at `shelfStore` (two available copies of title 1): users 1 and 2 borrow, then
users 3 and 4 ask. -/
theorem C9_at_most_N_borrows_witness :
    ∀ r ∈ (borrowSeq 1 (borrowSeq 1 shelfStore
        [⟨some 1, 7, calmBorrowEnv⟩, ⟨some 2, 7, calmBorrowEnv⟩]).2
        [⟨some 3, 7, calmBorrowEnv⟩, ⟨some 4, 30, calmBorrowEnv⟩]).1, r = noCopiesResponse :=
  (C9_at_most_N_borrows 1 shelfStore [⟨some 1, 7, calmBorrowEnv⟩, ⟨some 2, 7, calmBorrowEnv⟩]
    [⟨some 3, 7, calmBorrowEnv⟩, ⟨some 4, 30, calmBorrowEnv⟩]).2.2 (by decide) (by decide)

/-! ## C10: which status changes a call makes -/

/-- C10, as stated, fails: at `lostOnLoanStore` the copy has status lost, user 1 returns
loan 1, `ReturnBook` answers 200 and the copy has status available. -/
theorem C10_return_makes_lost_copy_available :
    lostOnLoanStore.bookCopies = [⟨1, 1, .CopyLost⟩] ∧
    (ReturnBook lostOnLoanStore (some 1) ⟨1⟩ calmReturnEnv).1.code = 200 ∧
    (ReturnBook lostOnLoanStore (some 1) ⟨1⟩ calmReturnEnv).2.bookCopies
      = [⟨1, 1, .CopyAvailable⟩] := by
  decide

theorem forall₂_map_self {α : Type} (R : α → α → Prop) (f : α → α) (l : List α)
    (h : ∀ r ∈ l, R r (f r)) : List.Forall₂ R l (l.map f) := by
  induction l with
  | nil => exact List.Forall₂.nil
  | cons r rs ih =>
    exact List.Forall₂.cons (h r (List.mem_cons_self _ _))
      (ih (fun x hx => h x (List.mem_cons_of_mem _ hx)))

/-- C10, amended: in a store with unique primary keys, row by row of `book_copies`, a
`BorrowBook` call leaves the row as it was or takes it from available to borrowed; a
`ReturnBook` call leaves the row as it was or sets its status to available, whatever it
was, and then the row is the copy of an active loan of the caller with the requested
key. -/
theorem C10_status_changes (db : Store) (userID : Option Nat) (breq : BorrowBookRequest)
    (benv : BorrowEnv) (rreq : ReturnBookRequest) (renv : ReturnEnv) (hwf : db.WF) :
    List.Forall₂
      (fun r r1 => r1 = r ∨
        (r.Status = .CopyAvailable ∧ r1 = { r with Status := .CopyBorrowed }))
      db.bookCopies (BorrowBook db userID breq benv).2.bookCopies ∧
    List.Forall₂
      (fun r r1 => r1 = r ∨
        (r1 = { r with Status := .CopyAvailable } ∧
          ∃ b ∈ db.borrows, b.ID = rreq.BorrowID ∧ userID = some b.UserID ∧
            b.Status = .BorrowActive ∧ b.BookCopyID = r.ID))
      db.bookCopies (ReturnBook db userID rreq renv).2.bookCopies := by
  constructor
  · rcases BorrowBook_outcome db userID breq benv with ⟨_, hs⟩ | h
    · rw [hs]
      exact List.forall₂_same.mpr (fun _ _ => Or.inl rfl)
    · obtain ⟨uid, c, _, _, _, hfa, _, _, _, _, hrun⟩ := h
      obtain ⟨hc, _, hst⟩ := firstAvailableCopy_some hfa
      rw [hrun]
      simp only [borrowedStore, saveBookCopy]
      apply forall₂_map_self
      intro r hr
      by_cases hid : r.ID = c.ID
      · have hrc : r = c := eq_of_mem_of_ID_eq hwf.1 hr hc hid
        subst hrc
        right
        simp [hst]
      · left; simp [hid]
  · rcases ReturnBook_outcome db userID rreq renv with ⟨_, hs⟩ | h
    · rw [hs]
      exact List.forall₂_same.mpr (fun _ _ => Or.inl rfl)
    · obtain ⟨uid, b, c, hu, _, hfb, hfc, _, hrun⟩ := h
      obtain ⟨hb, hbid, hbu, hbs⟩ := firstActiveBorrow_some hfb
      obtain ⟨hc, hcid⟩ := firstCopyByID_some hfc
      rw [hrun]
      simp only [returnedStore, saveBookCopy]
      apply forall₂_map_self
      intro r hr
      by_cases hid : r.ID = c.ID
      · have hrc : r = c := eq_of_mem_of_ID_eq hwf.1 hr hc hid
        subst hrc
        right
        refine ⟨by simp, b, hb, hbid, by rw [hu, hbu], hbs, hcid.symm⟩
      · left; simp [hid]

/-- C10, amended, at `lostOnLoanStore`. -/
theorem C10_status_changes_witness :
    List.Forall₂
      (fun r r1 => r1 = r ∨
        (r.Status = .CopyAvailable ∧ r1 = { r with Status := .CopyBorrowed }))
      lostOnLoanStore.bookCopies
      (BorrowBook lostOnLoanStore (some 1) weekRequest calmBorrowEnv).2.bookCopies ∧
    List.Forall₂
      (fun r r1 => r1 = r ∨
        (r1 = { r with Status := .CopyAvailable } ∧
          ∃ b ∈ lostOnLoanStore.borrows, b.ID = (⟨1⟩ : ReturnBookRequest).BorrowID ∧
            some 1 = some b.UserID ∧ b.Status = .BorrowActive ∧ b.BookCopyID = r.ID))
      lostOnLoanStore.bookCopies
      (ReturnBook lostOnLoanStore (some 1) ⟨1⟩ calmReturnEnv).2.bookCopies :=
  C10_status_changes lostOnLoanStore (some 1) weekRequest calmBorrowEnv ⟨1⟩ calmReturnEnv
    (by decide)

/-! ## C5: copy status and loan status agree -/

theorem map_ID_saveBookCopy (c1 : BookCopy) (rows : List BookCopy) :
    (saveBookCopy c1 rows).map BookCopy.ID = rows.map BookCopy.ID := by
  unfold saveBookCopy
  rw [List.map_map]
  apply List.map_congr_left
  intro r _
  by_cases h : r.ID = c1.ID <;> simp [h]

theorem map_ID_saveBorrow (b1 : Borrow) (rows : List Borrow) :
    (saveBorrow b1 rows).map Borrow.ID = rows.map Borrow.ID := by
  unfold saveBorrow
  rw [List.map_map]
  apply List.map_congr_left
  intro r _
  by_cases h : r.ID = b1.ID <;> simp [h]

theorem WF_BorrowBook (db : Store) (userID : Option Nat) (req : BorrowBookRequest)
    (env : BorrowEnv) (hwf : db.WF) : (BorrowBook db userID req env).2.WF := by
  rcases BorrowBook_outcome db userID req env with ⟨_, hs⟩ | h
  · rw [hs]; exact hwf
  · obtain ⟨uid, c, _, _, _, _, _, _, _, _, hrun⟩ := h
    rw [hrun]
    refine ⟨?_, ?_⟩
    · simp only [borrowedStore, map_ID_saveBookCopy]
      exact hwf.1
    · simp only [borrowedStore, List.map_append, List.map_cons, List.map_nil]
      rw [List.nodup_append]
      refine ⟨hwf.2, List.nodup_singleton _, ?_⟩
      intro x hx hx1
      rw [List.mem_singleton] at hx1
      subst hx1
      exact nextBorrowID_not_mem db.borrows hx

theorem WF_ReturnBook (db : Store) (userID : Option Nat) (req : ReturnBookRequest)
    (env : ReturnEnv) (hwf : db.WF) : (ReturnBook db userID req env).2.WF := by
  rcases ReturnBook_outcome db userID req env with ⟨_, hs⟩ | h
  · rw [hs]; exact hwf
  · obtain ⟨uid, b, c, _, _, _, _, _, hrun⟩ := h
    rw [hrun]
    refine ⟨?_, ?_⟩
    · simp only [returnedStore, map_ID_saveBookCopy]
      exact hwf.1
    · simp only [returnedStore, map_ID_saveBorrow]
      exact hwf.2

/-- Saving a row over the one row with its key changes a count by that row alone. -/
theorem countP_saveBorrow (p : Borrow → Bool) (rows : List Borrow) (b b1 : Borrow)
    (hnd : (rows.map Borrow.ID).Nodup) (hb : b ∈ rows) (hid : b1.ID = b.ID) :
    (saveBorrow b1 rows).countP p + (if p b = true then 1 else 0)
      = rows.countP p + (if p b1 = true then 1 else 0) := by
  induction rows with
  | nil => simp at hb
  | cons r rs ih =>
    rw [List.map_cons, List.nodup_cons] at hnd
    obtain ⟨hr, hrs⟩ := hnd
    have hcons : saveBorrow b1 (r :: rs)
        = (if r.ID = b1.ID then b1 else r) :: saveBorrow b1 rs := by
      simp [saveBorrow]
    rw [hcons, List.countP_cons, List.countP_cons]
    rcases List.mem_cons.mp hb with h | h
    · subst h
      have hsame : saveBorrow b1 rs = rs := by
        unfold saveBorrow
        conv_rhs => rw [← List.map_id rs]
        apply List.map_congr_left
        intro x hx
        have : x.ID ≠ b1.ID := by
          intro hx1
          apply hr
          rw [← hid, ← hx1]
          exact List.mem_map_of_mem _ hx
        simp [this]
      rw [hsame, if_pos hid.symm]
      omega
    · have hne : r.ID ≠ b1.ID := by
        intro h1
        apply hr
        rw [h1, hid]
        exact List.mem_map_of_mem _ h
      rw [if_neg hne]
      have := ih hrs h
      omega

theorem copyLoanAgreement_BorrowBook (db : Store) (userID : Option Nat)
    (req : BorrowBookRequest) (env : BorrowEnv) (hinv : copyLoanAgreement db) :
    copyLoanAgreement (BorrowBook db userID req env).2 := by
  rcases BorrowBook_outcome db userID req env with ⟨_, hs⟩ | h
  · rw [hs]; exact hinv
  · obtain ⟨uid, c, _, _, _, hfa, _, _, _, _, hrun⟩ := h
    obtain ⟨hc, _, hst⟩ := firstAvailableCopy_some hfa
    rw [hrun]
    have hrefs : ∀ id, activeRefs (borrowedStore db uid c req env) id
        = activeRefs db id + (if c.ID = id then 1 else 0) := by
      intro id
      simp [activeRefs, borrowedStore, newBorrow, List.countP_append, List.countP_cons]
    intro r1 hr1
    rw [hrefs]
    have hr1' : r1 ∈ saveBookCopy { c with Status := .CopyBorrowed } db.bookCopies := hr1
    rcases mem_saveBookCopy hr1' with h1 | ⟨h2, h3⟩
    · subst h1
      obtain ⟨hle, hiff⟩ := hinv c hc
      have h0 : activeRefs db c.ID = 0 := by
        have : activeRefs db c.ID ≠ 1 := fun h => by
          have := hiff.mpr h
          rw [hst] at this
          cases this
        omega
      simp [h0]
    · obtain ⟨hle, hiff⟩ := hinv r1 h2
      have hne : c.ID ≠ r1.ID := fun h => h3 h.symm
      simpa [hne] using ⟨hle, hiff⟩

theorem copyLoanAgreement_ReturnBook (db : Store) (userID : Option Nat)
    (req : ReturnBookRequest) (env : ReturnEnv) (hwf : db.WF) (hinv : copyLoanAgreement db) :
    copyLoanAgreement (ReturnBook db userID req env).2 := by
  rcases ReturnBook_outcome db userID req env with ⟨_, hs⟩ | h
  · rw [hs]; exact hinv
  · obtain ⟨uid, b, c, _, _, hfb, hfc, _, hrun⟩ := h
    obtain ⟨hb, _, _, hbs⟩ := firstActiveBorrow_some hfb
    obtain ⟨hc, hcid⟩ := firstCopyByID_some hfc
    rw [hrun]
    have hrefs : ∀ id, activeRefs (returnedStore db b c env) id
        + (if b.BookCopyID = id then 1 else 0) = activeRefs db id := by
      intro id
      have := countP_saveBorrow
        (fun x => decide (x.BookCopyID = id) && decide (x.Status = .BorrowActive)) db.borrows b
        { b with ReturnDate := some env.now, Status := .BorrowReturned } hwf.2 hb rfl
      simp only [activeRefs, returnedStore]
      simp [hbs] at this
      omega
    intro r1 hr1
    have hr1' : r1 ∈ saveBookCopy { c with Status := .CopyAvailable } db.bookCopies := hr1
    rcases mem_saveBookCopy hr1' with h1 | ⟨h2, h3⟩
    · subst h1
      obtain ⟨hle, _⟩ := hinv c hc
      have h := hrefs c.ID
      simp only [hcid, if_true] at h
      have h0 : activeRefs (returnedStore db b c env) b.BookCopyID = 0 := by
        rw [hcid] at hle; omega
      simp [hcid, h0]
    · obtain ⟨hle, hiff⟩ := hinv r1 h2
      have hne : b.BookCopyID ≠ r1.ID := by
        intro h
        apply h3
        simp [← h, hcid]
      have h := hrefs r1.ID
      simp only [hne, if_false, Nat.add_zero] at h
      rw [h]
      exact ⟨hle, hiff⟩

theorem WF_Call_run (db : Store) (k : Call) (hwf : db.WF) : (Call.run db k).WF := by
  cases k with
  | borrow userID req env => exact WF_BorrowBook db userID req env hwf
  | giveBack userID req env => exact WF_ReturnBook db userID req env hwf

theorem copyLoanAgreement_runCalls (cs : List Call) (db : Store) (hwf : db.WF)
    (hinv : copyLoanAgreement db) : copyLoanAgreement (runCalls db cs) := by
  induction cs generalizing db with
  | nil => exact hinv
  | cons k ks ih =>
    simp only [runCalls, List.foldl_cons]
    apply ih _ (WF_Call_run db k hwf)
    cases k with
    | borrow userID req env => exact copyLoanAgreement_BorrowBook db userID req env hinv
    | giveBack userID req env => exact copyLoanAgreement_ReturnBook db userID req env hwf hinv

/-- C5: in a store with unique primary keys in which every copy is referenced by at most
one active borrow and is borrowed exactly when one active borrow references it, the same
holds after every `BorrowBook` call, after every `ReturnBook` call, and after every
sequence of such calls, whatever their context, request and failing storage statements. -/
theorem C5_copy_and_loan_agree (db : Store) (hwf : db.WF) (hinv : copyLoanAgreement db)
    (buser : Option Nat) (breq : BorrowBookRequest) (benv : BorrowEnv)
    (ruser : Option Nat) (rreq : ReturnBookRequest) (renv : ReturnEnv) (cs : List Call) :
    copyLoanAgreement (BorrowBook db buser breq benv).2 ∧
    copyLoanAgreement (ReturnBook db ruser rreq renv).2 ∧
    copyLoanAgreement (runCalls db cs) :=
  ⟨copyLoanAgreement_BorrowBook db buser breq benv hinv,
    copyLoanAgreement_ReturnBook db ruser rreq renv hwf hinv,
    copyLoanAgreement_runCalls cs db hwf hinv⟩

/-- C5 at `loanedStore`: user 2 borrows title 1, user 1 returns loan 1, and the two calls
in a row. -/
theorem C5_copy_and_loan_agree_witness :
    copyLoanAgreement (BorrowBook loanedStore (some 2) weekRequest calmBorrowEnv).2 ∧
    copyLoanAgreement (ReturnBook loanedStore (some 1) ⟨1⟩ calmReturnEnv).2 ∧
    copyLoanAgreement (runCalls loanedStore
      [.borrow (some 2) weekRequest calmBorrowEnv, .giveBack (some 1) ⟨1⟩ calmReturnEnv]) :=
  C5_copy_and_loan_agree loanedStore (by decide) (by decide) (some 2) weekRequest calmBorrowEnv
    (some 1) ⟨1⟩ calmReturnEnv
    [.borrow (some 2) weekRequest calmBorrowEnv, .giveBack (some 1) ⟨1⟩ calmReturnEnv]

/-! ## C4: one active loan per user and title -/

/-- Saving a copy with the key and the title of a copy already in the table gives no
borrow a title it did not have before. -/
theorem activeLoanOn_of_saveBookCopy {db : Store} {c c1 : BookCopy} {borrows : List Borrow}
    (hc : c ∈ db.bookCopies) (hid : c1.ID = c.ID) (ht : c1.BookID = c.BookID) {u t : Nat}
    {b : Borrow}
    (h : activeLoanOn
      { db with bookCopies := saveBookCopy c1 db.bookCopies, borrows := borrows } u t b) :
    activeLoanOn db u t b := by
  obtain ⟨hu, hs, c2, hc2, hid2, ht2⟩ := h
  refine ⟨hu, hs, ?_⟩
  rcases List.mem_append.mp hc2 with hlive | hdel
  · rcases mem_saveBookCopy hlive with h1 | ⟨h2, _⟩
    · subst h1
      exact ⟨c, List.mem_append_left _ hc, by rw [← hid, hid2], by rw [← ht, ht2]⟩
    · exact ⟨c2, List.mem_append_left _ h2, hid2, ht2⟩
  · exact ⟨c2, List.mem_append_right _ hdel, hid2, ht2⟩

/-- In every call in which the count of active loans returns without error, `BorrowBook`
keeps `oneLoanPerTitle`, when no soft-deleted copy carries the key of a live one (keys
are unique in the table). -/
theorem oneLoanPerTitle_BorrowBook (db : Store) (userID : Option Nat)
    (req : BorrowBookRequest) (env : BorrowEnv) (hcount : env.countFails = false)
    (hapart : ∀ d ∈ db.deletedCopies, ∀ c ∈ db.bookCopies, d.ID ≠ c.ID)
    (hinv : oneLoanPerTitle db) : oneLoanPerTitle (BorrowBook db userID req env).2 := by
  rcases BorrowBook_outcome db userID req env with ⟨_, hs⟩ | h
  · rw [hs]; exact hinv
  · obtain ⟨uid, c, _, _, _, hfa, hn, _, _, _, hrun⟩ := h
    obtain ⟨hc, ht, _⟩ := firstAvailableCopy_some hfa
    have hzero : countActiveBorrows uid req.BookID db = 0 := by
      rcases hn with h | h
      · rw [hcount] at h; cases h
      · exact h
    rw [hrun]
    intro u t
    have hold : ∀ x ∈ db.borrows,
        decide (activeLoanOn (borrowedStore db uid c req env) u t x) = true →
        decide (activeLoanOn db u t x) = true := by
      intro x _ hx
      rw [decide_eq_true_eq] at hx ⊢
      exact @activeLoanOn_of_saveBookCopy _ _ { c with Status := .CopyBorrowed } _ hc rfl rfl _ _ _ hx
    have hle := List.countP_mono_left hold
    have hsplit : loansOf (borrowedStore db uid c req env) u t
        = db.borrows.countP (fun b => decide (activeLoanOn (borrowedStore db uid c req env) u t b))
          + (if activeLoanOn (borrowedStore db uid c req env) u t (newBorrow db uid c req env)
              then 1 else 0) := by
      simp [loansOf, borrowedStore, List.countP_append, List.countP_cons]
    rw [hsplit]
    by_cases hnew : activeLoanOn (borrowedStore db uid c req env) u t (newBorrow db uid c req env)
    · rw [if_pos hnew]
      obtain ⟨hu, _, c2, hc2, hid2, ht2⟩ := hnew
      have hc2' : c2 ∈ saveBookCopy { c with Status := .CopyBorrowed } db.bookCopies
          ++ db.deletedCopies := hc2
      have hc2eq : c2 = { c with Status := .CopyBorrowed } := by
        rcases List.mem_append.mp hc2' with hlive | hdel
        · rcases mem_saveBookCopy hlive with h1 | ⟨_, h2⟩
          · exact h1
          · exact absurd hid2 h2
        · exact absurd hid2 (hapart c2 hdel c hc)
      have htt : t = req.BookID := by rw [← ht2, hc2eq, ← ht]
      have huu : u = uid := by rw [← hu]; rfl
      subst htt; subst huu
      have h0 : db.borrows.countP (fun b => decide (activeLoanOn db u req.BookID b)) = 0 := by
        rw [List.countP_eq_zero]
        intro b hb
        simpa using countActiveBorrows_eq_zero.mp hzero b hb
      omega
    · rw [if_neg hnew]
      have := hinv u t
      unfold loansOf at this
      omega

/-- Every `ReturnBook` call keeps `oneLoanPerTitle`. -/
theorem oneLoanPerTitle_ReturnBook (db : Store) (userID : Option Nat)
    (req : ReturnBookRequest) (env : ReturnEnv) (hinv : oneLoanPerTitle db) :
    oneLoanPerTitle (ReturnBook db userID req env).2 := by
  rcases ReturnBook_outcome db userID req env with ⟨_, hs⟩ | h
  · rw [hs]; exact hinv
  · obtain ⟨uid, b, c, _, _, _, hfc, _, hrun⟩ := h
    obtain ⟨hc, _⟩ := firstCopyByID_some hfc
    rw [hrun]
    intro u t
    refine le_trans ?_ (hinv u t)
    simp only [loansOf, returnedStore, saveBorrow, List.countP_map]
    apply List.countP_mono_left
    intro x _ hx
    simp only [Function.comp, decide_eq_true_eq] at hx ⊢
    by_cases hid : x.ID = b.ID
    · rw [if_pos hid] at hx
      obtain ⟨_, hs, _⟩ := hx
      cases hs
    · rw [if_neg hid] at hx
      exact @activeLoanOn_of_saveBookCopy _ _ { c with Status := .CopyAvailable } _ hc rfl rfl _ _ _ hx

/-- C4 fails on the code: `loanedStore` has one active loan per user and title; user 1,
who holds copy 1 of title 1, asks for title 1 again and the count of active loans returns
an error, which `BorrowBook` does not look at: the call answers 200 and user 1 has two
active loans on copies of title 1. -/
theorem C4_count_error_admits_second_loan :
    oneLoanPerTitle loanedStore ∧
    (BorrowBook loanedStore (some 1) weekRequest countFailsBorrowEnv).1.code = 200 ∧
    loansOf (BorrowBook loanedStore (some 1) weekRequest countFailsBorrowEnv).2 1 1 = 2 ∧
    ¬ oneLoanPerTitle (BorrowBook loanedStore (some 1) weekRequest countFailsBorrowEnv).2 := by
  refine ⟨?_, by decide, by decide, ?_⟩
  · intro u t
    exact List.countP_le_length _
  · intro h
    have h2 : loansOf (BorrowBook loanedStore (some 1) weekRequest countFailsBorrowEnv).2 1 1 = 2 := by
      decide
    have := h 1 1
    omega

/-! ## C16: the bounds on `days` -/

/-- C16: a request whose `days` is below 1 or above 30 is answered with the 400 of the
binding step, with the store as it was, whatever the context and whatever the storage
statements would do (none is reached); a request with `days` from 1 to 30 and a
non-zero `book_id` passes the binding step. -/
theorem C16_days_out_of_range_rejected (db : Store) (userID : Option Nat)
    (req : BorrowBookRequest) (env : BorrowEnv) :
    ((req.Days < 1 ∨ 30 < req.Days) →
      BorrowBook db userID req env = (⟨400, .bindError⟩, db)) ∧
    (1 ≤ req.Days → req.Days ≤ 30 → req.BookID ≠ 0 → bindBorrowBookRequest req = true) := by
  constructor
  · intro h
    have hb : bindBorrowBookRequest req = false := by
      unfold bindBorrowBookRequest
      rcases h with h | h
      · have : ¬ (1 ≤ req.Days) := by omega
        simp [this]
      · have : ¬ (req.Days ≤ 30) := by omega
        simp [this]
    unfold BorrowBook
    simp [hb]
  · intro h1 h2 h3
    unfold bindBorrowBookRequest
    have : req.Days ≠ 0 := by omega
    simp [h1, h2, h3, this]

/-- C16 at `shelfStore`: `days = 31` with every storage statement failing, and `days = 30`. -/
theorem C16_days_out_of_range_rejected_witness :
    BorrowBook shelfStore (some 5) ⟨1, 31⟩ allFailBorrowEnv = (⟨400, .bindError⟩, shelfStore) ∧
    bindBorrowBookRequest ⟨1, 30⟩ = true :=
  ⟨(C16_days_out_of_range_rejected shelfStore (some 5) ⟨1, 31⟩ allFailBorrowEnv).1 (by decide),
   (C16_days_out_of_range_rejected shelfStore (some 5) ⟨1, 30⟩ allFailBorrowEnv).2 (by decide)
      (by decide) (by decide)⟩

/-! ## C18: the due date -/

/-- C18 fails on the code: at `shelfStore` user 5 borrows title 1 for 7 days while the
clock reads 1000 at the first `time.Now()` and 1001 at the second; the created record
has `BorrowDate = 1000` and `DueDate = 1001 + 7 days`, which is not `BorrowDate + 7 days`. -/
theorem C18_due_date_from_second_reading :
    (BorrowBook shelfStore (some 5) weekRequest calmBorrowEnv).1
      = ⟨200, .borrow ⟨1, 5, 1, 1000, AddDate 1001 7, none, .BorrowActive⟩⟩ ∧
    AddDate 1001 7 ≠ AddDate 1000 7 := by
  decide

/-! ## C19: storage failures inside the unit of work -/

/-- A failure of the copy lookup, of the save of the copy, of the insert or of the commit
is answered with a code other than 200 and leaves the store as it was. -/
theorem BorrowBook_fault_reported (db : Store) (userID : Option Nat) (req : BorrowBookRequest)
    (env : BorrowEnv)
    (h : env.firstFails = true ∨ env.saveFails = true ∨ env.createFails = true ∨
      env.commitFails = true) :
    (BorrowBook db userID req env).1.code ≠ 200 ∧ (BorrowBook db userID req env).2 = db := by
  rcases BorrowBook_outcome db userID req env with h1 | ⟨_, _, _, _, hf, _, _, hs, hc, hco, _⟩
  · exact h1
  · rw [hf, hs, hc, hco] at h
    simp at h

/-- C19 fails on the code: at `shelfStore` user 5 borrows title 1 and the count of
active loans returns an error; `BorrowBook` answers 200 and the store has a new borrow. -/
theorem C19_count_error_not_reported :
    countFailsBorrowEnv.countFails = true ∧
    (BorrowBook shelfStore (some 5) weekRequest countFailsBorrowEnv).1.code = 200 ∧
    (BorrowBook shelfStore (some 5) weekRequest countFailsBorrowEnv).2.borrows.length
      = shelfStore.borrows.length + 1 := by
  decide


/-! ## C11: a token from issue to expiry -/

/-- C11, as stated, fails: the token issued to user 7 at instant 0 expires at
604800 seconds; at that very instant, which is not before `NotBefore` and not after
`ExpiresAt`, `ParseToken` returns an error. -/
theorem C11_rejected_at_expiry_instant :
    (newClaims (stillClock 0) 7 .RoleUser).NotBefore = some 0 ∧
    (newClaims (stillClock 0) 7 .RoleUser).ExpiresAt = some 604800000000000 ∧
    ParseToken sampleSecret 604800000000000
      (GenerateToken sampleSecret (stillClock 0) 7 .RoleUser) = none := by
  decide

/-- C11, amended: the token `GenerateToken` returns carries `NotBefore = nbf` and
`ExpiresAt = exp` (seven days after the first clock reading, in whole seconds); at every
instant `t` with `nbf ≤ t < exp` `ParseToken` under the same secret returns claims with
the same user and role, and at every instant `t` with `exp ≤ t` it returns an error. -/
theorem C11_token_valid_until_expiry (jwtSecret : List Nat) (clock : TokenClock)
    (userID : Nat) (role : UserRole) (t : Int) :
    ∃ nbf exp, (newClaims clock userID role).NotBefore = some nbf ∧
      (newClaims clock userID role).ExpiresAt = some exp ∧
      exp = NewNumericDate (clock.now1 + 7 * 24 * Hour) ∧
      (GenerateToken jwtSecret clock userID role).claims? = some (newClaims clock userID role) ∧
      (nbf ≤ t → t < exp →
        ∃ c, ParseToken jwtSecret t (GenerateToken jwtSecret clock userID role) = some c ∧
          c.UserID = userID ∧ c.Role = role) ∧
      (exp ≤ t → ParseToken jwtSecret t (GenerateToken jwtSecret clock userID role) = none) := by
  refine ⟨NewNumericDate clock.now3, NewNumericDate (clock.now1 + 7 * 24 * Hour), rfl, rfl, rfl,
    rfl, ?_, ?_⟩
  · intro h1 h2
    refine ⟨newClaims clock userID role, ?_, rfl, rfl⟩
    have h2a : t < NewNumericDate (clock.now1 + 168 * Hour) := by simpa using h2
    simp [ParseToken, GenerateToken, keyFunc, validateClaims, newClaims, sign, h1, h2a]
  · intro h
    have ha : NewNumericDate (clock.now1 + 168 * Hour) ≤ t := by simpa using h
    simp only [ParseToken, GenerateToken, keyFunc, validateClaims, newClaims, sign]
    simp
    intro h3
    omega

/-- C11, amended, for the token issued to user 7 at instant 0, one second later. -/
theorem C11_token_valid_until_expiry_witness :
    ∃ c, ParseToken sampleSecret 1000000000
        (GenerateToken sampleSecret (stillClock 0) 7 .RoleUser) = some c ∧
      c.UserID = 7 ∧ c.Role = .RoleUser := by
  obtain ⟨nbf, exp, h1, h2, _, _, h5, _⟩ :=
    C11_token_valid_until_expiry sampleSecret (stillClock 0) 7 .RoleUser 1000000000
  have hn : nbf = 0 := by
    have : (newClaims (stillClock 0) 7 .RoleUser).NotBefore = some 0 := by decide
    rw [this] at h1
    exact (Option.some.inj h1).symm
  have he : exp = 604800000000000 := by
    have : (newClaims (stillClock 0) 7 .RoleUser).ExpiresAt = some 604800000000000 := by decide
    rw [this] at h2
    exact (Option.some.inj h2).symm
  exact h5 (by omega) (by omega)

/-! ## C12: which signing methods `ParseToken` takes -/

/-- C12, as stated, fails: `hs384Token` names HS384, not HS256, and is signed with HS384
under the service secret; `ParseToken` accepts it. -/
theorem C12_accepts_hs384 :
    ParseToken sampleSecret 1000000000 hs384Token
      = some (newClaims (stillClock 0) 7 .RoleUser) := by
  decide

/-- C12, amended: `ParseToken` returns an error for every token whose method is not of
the HMAC family (whatever its signature and dates), and accepts a token with HS256,
HS384 or HS512 whose signature is the one of that method under the service secret, at
every instant its dates allow. -/
theorem C12_only_hmac_methods (jwtSecret : List Nat) (now : Int) (t : Token) :
    ((∀ h, t.alg ≠ some (.HMAC h)) → ParseToken jwtSecret now (.segments t) = none) ∧
    (∀ h, t.alg = some (.HMAC h) → t.sig = sign (.HMAC h) jwtSecret t.claims →
      validateClaims now t.claims = true →
      ParseToken jwtSecret now (.segments t) = some t.claims) := by
  constructor
  · intro h
    cases ha : t.alg with
    | none => simp [ParseToken, ha]
    | some m =>
      cases m with
      | HMAC hs => exact absurd ha (h hs)
      | RSA _ => simp [ParseToken, ha, keyFunc]
      | RSAPSS _ => simp [ParseToken, ha, keyFunc]
      | ECDSA _ => simp [ParseToken, ha, keyFunc]
      | Ed25519 => simp [ParseToken, ha, keyFunc]
      | unsecured => simp [ParseToken, ha, keyFunc]
  · intro h ha hs hv
    simp [ParseToken, ha, keyFunc, hs, hv]

/-- C12, amended, at `rs256Token` and at the HS256 token issued to user 7. -/
theorem C12_only_hmac_methods_witness :
    ParseToken sampleSecret 1000000000 (.segments rs256Token) = none ∧
    ParseToken sampleSecret 1000000000
      (.segments ⟨some (.HMAC .h256), newClaims (stillClock 0) 7 .RoleUser,
        sign (.HMAC .h256) sampleSecret (newClaims (stillClock 0) 7 .RoleUser)⟩)
      = some (newClaims (stillClock 0) 7 .RoleUser) :=
  ⟨(C12_only_hmac_methods sampleSecret 1000000000 rs256Token).1
      (by intro h; simp [rs256Token]),
   (C12_only_hmac_methods sampleSecret 1000000000
      ⟨some (.HMAC .h256), newClaims (stillClock 0) 7 .RoleUser,
        sign (.HMAC .h256) sampleSecret (newClaims (stillClock 0) 7 .RoleUser)⟩).2 .h256 rfl rfl
      (by decide)⟩

/-! ## C13: the expiry shown next to the token -/

/-- C13 fails on the code: under the default configuration (72 hours) a password login
and a Google login at instant 0 both answer 200 with a token whose `ExpiresAt` claim is
604800 seconds (seven days), while the `expires_at` next to it is 259200 seconds (three
days); one second after the reported expiry `ParseToken` still accepts the token. -/
theorem C13_reported_expiry_differs :
    (Login sampleSecret sampleLoginEnv).1 = 200 ∧
    (Login sampleSecret sampleLoginEnv).2.map (fun r => r.ExpiresAt) = some 259200 ∧
    (Login sampleSecret sampleLoginEnv).2.map (fun r => r.Token.claims?.bind (fun c => c.ExpiresAt))
      = some (some 604800000000000) ∧
    (GoogleLoginCallback sampleSecret sampleGoogleEnv).1 = 200 ∧
    (GoogleLoginCallback sampleSecret sampleGoogleEnv).2.map (fun r => r.ExpiresAt)
      = some 259200000000000 ∧
    (GoogleLoginCallback sampleSecret sampleGoogleEnv).2.map
        (fun r => r.Token.claims?.bind (fun c => c.ExpiresAt))
      = some (some 604800000000000) ∧
    (ParseToken sampleSecret 259201000000000
      (GenerateToken sampleSecret (stillClock 0) 7 .RoleUser)).isSome = true := by
  decide


/-! ## C14 and C15: the token bucket of one client -/

theorem RateLimitMiddleware_some (l : IPRateLimiter) (a : String) (now : Int) :
    RateLimitMiddleware (some l) a now
      = (((bucketOf l a).Allow now).1, some (stepLimiter l a now)) := rfl

/-- After `getLimiter` the map holds, under the address, the bucket it returned: the one
that was there, or the one `addIP` created and stored. -/
theorem getLimiter_stored (l : IPRateLimiter) (a : String) :
    (l.getLimiter a).2.ips a = some (l.getLimiter a).1 := by
  cases ha : l.ips a <;> simp [IPRateLimiter.getLimiter, IPRateLimiter.addIP, ha]

theorem getLimiter_other (l : IPRateLimiter) (a ip : String) (h : a ≠ ip) :
    (l.getLimiter a).2.ips ip = l.ips ip ∧ (l.getLimiter a).2.rps = l.rps ∧
      (l.getLimiter a).2.burst = l.burst := by
  have h2 : ip ≠ a := fun e => h e.symm
  cases ha : l.ips a <;> simp [IPRateLimiter.getLimiter, IPRateLimiter.addIP, ha, h2]

theorem bucketOf_of_some {l : IPRateLimiter} {ip : String} {lim : Limiter}
    (h : l.ips ip = some lim) : bucketOf l ip = lim := by
  simp [bucketOf, IPRateLimiter.getLimiter, h]

theorem bucketOf_stepLimiter_self (l : IPRateLimiter) (a : String) (now : Int) :
    bucketOf (stepLimiter l a now) a = ((bucketOf l a).Allow now).2 := by
  have hst := getLimiter_stored l a
  apply bucketOf_of_some
  show (if a = a ∧ (l.getLimiter a).2.ips a = some (l.getLimiter a).1
      then some ((l.getLimiter a).1.Allow now).2 else (l.getLimiter a).2.ips a) = _
  rw [if_pos ⟨rfl, hst⟩]
  rfl

theorem bucketOf_stepLimiter_ne (l : IPRateLimiter) (a ip : String) (now : Int)
    (h : a ≠ ip) : bucketOf (stepLimiter l a now) ip = bucketOf l ip := by
  have h2 : ip ≠ a := fun e => h e.symm
  obtain ⟨h3, h4, h5⟩ := getLimiter_other l a ip h
  have hips : (stepLimiter l a now).ips ip = l.ips ip := by
    simp [stepLimiter, IPRateLimiter.through, h2, h3]
  have hrps : (stepLimiter l a now).rps = l.rps := h4
  have hburst : (stepLimiter l a now).burst = l.burst := h5
  cases hi : l.ips ip with
  | none =>
    rw [hi] at hips
    simp [bucketOf, IPRateLimiter.getLimiter, IPRateLimiter.addIP, hips, hi, hrps, hburst]
  | some lim =>
    rw [hi] at hips
    simp [bucketOf, IPRateLimiter.getLimiter, hips, hi]

theorem Allow_admitted (lim : Limiter) (now : Int) (hb : tokenUnit ≤ lim.advance now) :
    lim.Allow now = (true, { lim with tokens := lim.advance now - tokenUnit, last := now }) :=
  if_pos hb

theorem Allow_rejected (lim : Limiter) (now : Int) (hb : ¬ tokenUnit ≤ lim.advance now) :
    lim.Allow now = (false, lim) :=
  if_neg hb

theorem Allow_limit (lim : Limiter) (now : Int) :
    (lim.Allow now).2.limit = lim.limit ∧ (lim.Allow now).2.burst = lim.burst := by
  by_cases hb : tokenUnit ≤ lim.advance now
  · rw [Allow_admitted lim now hb]; exact ⟨rfl, rfl⟩
  · rw [Allow_rejected lim now hb]; exact ⟨rfl, rfl⟩

theorem advance_le_burst (lim : Limiter) (t : Int) :
    lim.advance t ≤ lim.burst * tokenUnit := by
  unfold Limiter.advance
  exact min_le_left _ _

/-- Between two instants a bucket gains at most its rate times the time between them. -/
theorem advance_lipschitz (lim : Limiter) (t t1 : Int) (h : t ≤ t1) :
    lim.advance t1 ≤ lim.advance t + (t1 - t) * lim.limit := by
  unfold Limiter.advance
  have hd : max 0 (t1 - lim.last) ≤ max 0 (t - lim.last) + (t1 - t) := by
    simp only [max_def]; split_ifs <;> omega
  have hl : (0 : Int) ≤ lim.limit := Int.natCast_nonneg _
  have hm := mul_le_mul_of_nonneg_right hd hl
  rw [add_mul] at hm
  have hd0 : (0 : Int) ≤ (t1 - t) * lim.limit := mul_nonneg (by omega) hl
  generalize max 0 (t1 - lim.last) * (lim.limit : Int) = x1 at hm ⊢
  generalize max 0 (t - lim.last) * (lim.limit : Int) = x at hm ⊢
  generalize (t1 - t) * (lim.limit : Int) = d at hm hd0 ⊢
  simp only [min_def]
  split_ifs <;> omega

/-- An admitted request takes one token out of what the bucket holds afterwards. -/
theorem advance_after_Allow (lim : Limiter) (t : Int) (ha : (lim.Allow t).1 = true) :
    (lim.Allow t).2.advance t + tokenUnit ≤ lim.advance t := by
  by_cases hb : tokenUnit ≤ lim.advance t
  · rw [Allow_admitted lim t hb]
    simp only [Limiter.advance, sub_self, max_self, zero_mul, add_zero]
    have := min_le_right ((lim.burst : Int) * tokenUnit)
      (min ((lim.burst : Int) * tokenUnit) (lim.tokens + max 0 (t - lim.last) * lim.limit)
        - tokenUnit)
    omega
  · rw [Allow_rejected lim t hb] at ha
    cases ha

/-- The count of admitted requests of one client, against the tokens it finds at the
start and the refill up to the end of the interval. -/
theorem admittedCount_le (ip : String) (R : Nat) (reqs : List (String × Int)) :
    ∀ (l : IPRateLimiter) (t1 hi : Int), (bucketOf l ip).limit = R → t1 ≤ hi →
      (∀ q ∈ reqs, t1 ≤ q.2 ∧ q.2 ≤ hi) → reqs.Pairwise (fun p q => p.2 ≤ q.2) →
      (admittedCount ip (some l) reqs : Int) * tokenUnit
        ≤ max 0 ((bucketOf l ip).advance t1) + (hi - t1) * R := by
  induction reqs with
  | nil =>
    intro l t1 hi _ hle _ _
    have h1 : (0 : Int) ≤ (hi - t1) * R :=
      mul_nonneg (by omega) (Int.natCast_nonneg _)
    have h2 : (0 : Int) ≤ max 0 ((bucketOf l ip).advance t1) := le_max_left _ _
    simp only [admittedCount, Nat.cast_zero, zero_mul]
    omega
  | cons q qs ih =>
    intro l t1 hi hR hle hq hp
    obtain ⟨hq1, hq2⟩ := hq q (List.mem_cons_self _ _)
    rw [List.pairwise_cons] at hp
    obtain ⟨hhead, htail⟩ := hp
    have hqs : ∀ x ∈ qs, q.2 ≤ x.2 ∧ x.2 ≤ hi := fun x hx =>
      ⟨hhead x hx, (hq x (List.mem_cons_of_mem _ hx)).2⟩
    have hmul : (hi - t1) * (R : Int) = (q.2 - t1) * R + (hi - q.2) * R := by ring
    have hlip := advance_lipschitz (bucketOf l ip) t1 q.2 hq1
    rw [hR] at hlip
    have hpos : (0 : Int) ≤ (q.2 - t1) * R :=
      mul_nonneg (by omega) (Int.natCast_nonneg _)
    simp only [admittedCount, RateLimitMiddleware_some]
    rw [hmul]
    by_cases ha : q.1 = ip
    · have hb := bucketOf_stepLimiter_self l q.1 q.2
      rw [ha] at hb
      have hR1 : (bucketOf (stepLimiter l q.1 q.2) ip).limit = R := by
        rw [ha, hb, (Allow_limit _ _).1, hR]
      have h := ih (stepLimiter l q.1 q.2) q.2 hi hR1 hq2 hqs htail
      rw [ha] at h ⊢
      rw [hb] at h
      by_cases hx : ((bucketOf l ip).Allow q.2).1 = true
      · have hadm := advance_after_Allow (bucketOf l ip) q.2 hx
        have hu : tokenUnit ≤ (bucketOf l ip).advance q.2 := by
          by_contra hn
          rw [Allow_rejected _ _ hn] at hx
          cases hx
        have hu0 : (0 : Int) < tokenUnit := by decide
        simp only [hx, and_self, if_true]
        push_cast
        rw [add_mul, one_mul]
        omega
      · have hx1 : ¬ tokenUnit ≤ (bucketOf l ip).advance q.2 := by
          intro hb1
          rw [Allow_admitted _ _ hb1] at hx
          exact hx rfl
        rw [Allow_rejected _ _ hx1] at h
        dsimp only at h
        simp only [hx, Bool.false_eq_true, and_false, if_false, Nat.zero_add]
        omega
    · have hb := bucketOf_stepLimiter_ne l q.1 ip q.2 ha
      have hR1 : (bucketOf (stepLimiter l q.1 q.2) ip).limit = R := by rw [hb, hR]
      have h := ih (stepLimiter l q.1 q.2) q.2 hi hR1 hq2 hqs htail
      rw [hb] at h
      simp only [ha, false_and, if_false, Nat.zero_add]
      omega

theorem serve_append (l : Option IPRateLimiter) (xs ys : List (String × Int)) :
    serve l (xs ++ ys) = ((serve l xs).1 ++ (serve (serve l xs).2 ys).1,
      (serve (serve l xs).2 ys).2) := by
  induction xs generalizing l with
  | nil => simp [serve]
  | cons q qs ih => simp [serve, ih]

/-- Every bucket the middleware uses carries the rate `R` and the burst `B`. -/
theorem bucketOf_serve (R B : Nat) (history : List (String × Int)) :
    ∀ l : IPRateLimiter, (∀ ip, (bucketOf l ip).limit = R ∧ (bucketOf l ip).burst = B) →
      ∃ l1, (serve (some l) history).2 = some l1 ∧
        ∀ ip, (bucketOf l1 ip).limit = R ∧ (bucketOf l1 ip).burst = B := by
  induction history with
  | nil => intro l h; exact ⟨l, rfl, h⟩
  | cons q qs ih =>
    intro l h
    simp only [serve, RateLimitMiddleware_some]
    apply ih
    intro ip
    by_cases ha : q.1 = ip
    · rw [← ha, bucketOf_stepLimiter_self, (Allow_limit _ _).1, (Allow_limit _ _).2]
      exact h q.1
    · rw [bucketOf_stepLimiter_ne l q.1 ip q.2 ha]
      exact h ip

theorem bucketOf_InitRateLimiter (cfg : Config) (ip : String) :
    bucketOf (InitRateLimiter cfg) ip = NewLimiter cfg.RateLimitRPS cfg.RateLimitBurst := rfl

/-- C15: take the limiter configured with rate `R` and burst `B` after any history of
requests, and any further requests, of any clients, that arrive in the order of their
instants within an interval of `len` nanoseconds.  The number `n` of requests of client
`ip` among them that the middleware admits satisfies `n ≤ B + R * len / 10^9`, stated
without division; for `len = 0` (one instant) this is `n ≤ B`. -/
theorem C15_admitted_at_most_burst_plus_rate (cfg : Config) (history reqs : List (String × Int))
    (ip : String) (a : Int) (len : Nat)
    (hwin : ∀ q ∈ reqs, a ≤ q.2 ∧ q.2 ≤ a + len)
    (hmono : reqs.Pairwise (fun p q => p.2 ≤ q.2)) :
    admittedCount ip (serve (some (InitRateLimiter cfg)) history).2 reqs * 1000000000
        ≤ cfg.RateLimitBurst * 1000000000 + cfg.RateLimitRPS * len ∧
    (len = 0 →
      admittedCount ip (serve (some (InitRateLimiter cfg)) history).2 reqs
        ≤ cfg.RateLimitBurst) := by
  obtain ⟨l1, hl1, hu⟩ := bucketOf_serve cfg.RateLimitRPS cfg.RateLimitBurst history
    (InitRateLimiter cfg) (fun ip => by rw [bucketOf_InitRateLimiter]; exact ⟨rfl, rfl⟩)
  rw [hl1]
  have hmain := admittedCount_le ip cfg.RateLimitRPS reqs l1 a (a + len) (hu ip).1 (by omega)
    hwin hmono
  have hcap := advance_le_burst (bucketOf l1 ip) a
  rw [(hu ip).2] at hcap
  have hB : (0 : Int) ≤ (cfg.RateLimitBurst : Int) * tokenUnit :=
    mul_nonneg (Int.natCast_nonneg _) (by decide)
  have hmax : max 0 ((bucketOf l1 ip).advance a) ≤ (cfg.RateLimitBurst : Int) * tokenUnit :=
    max_le hB hcap
  have hlen : (a + (len : Int) - a) * (cfg.RateLimitRPS : Int)
      = (cfg.RateLimitRPS : Int) * (len : Int) := by ring
  rw [hlen] at hmain
  have hfinal : (admittedCount ip (some l1) reqs : Int) * tokenUnit
      ≤ (cfg.RateLimitBurst : Int) * tokenUnit + (cfg.RateLimitRPS : Int) * (len : Int) := by
    omega
  have hnat : admittedCount ip (some l1) reqs * 1000000000
      ≤ cfg.RateLimitBurst * 1000000000 + cfg.RateLimitRPS * len := by
    have : tokenUnit = ((1000000000 : Nat) : Int) := rfl
    rw [this] at hfinal
    exact_mod_cast hfinal
  refine ⟨hnat, ?_⟩
  intro h0
  rw [h0] at hnat
  omega

/-- C15 for the default configuration, a fresh limiter and thirty requests of client
"1.2.3.4" at instant 5. -/
theorem C15_admitted_at_most_burst_plus_rate_witness :
    admittedCount "1.2.3.4" (serve (some (InitRateLimiter defaultConfig)) []).2
        (List.replicate 30 ("1.2.3.4", 5)) * 1000000000
      ≤ defaultConfig.RateLimitBurst * 1000000000 + defaultConfig.RateLimitRPS * 0 ∧
    ((0 : Nat) = 0 →
      admittedCount "1.2.3.4" (serve (some (InitRateLimiter defaultConfig)) []).2
        (List.replicate 30 ("1.2.3.4", 5)) ≤ defaultConfig.RateLimitBurst) :=
  C15_admitted_at_most_burst_plus_rate defaultConfig [] (List.replicate 30 ("1.2.3.4", 5))
    "1.2.3.4" 5 0 (by decide) (by decide)


/-- A client that finds `k` whole tokens at instant `t` has its next `n ≤ k` requests at
`t` admitted, and finds `k - n` tokens afterwards. -/
theorem serve_replicate_admitted (ip : String) (t : Int) (n : Nat) :
    ∀ (l : IPRateLimiter) (k : Nat), (bucketOf l ip).advance t = k * tokenUnit → n ≤ k →
      (serve (some l) (List.replicate n (ip, t))).1 = List.replicate n true ∧
      ∃ l1, (serve (some l) (List.replicate n (ip, t))).2 = some l1 ∧
        (bucketOf l1 ip).advance t = ((k - n : Nat) : Int) * tokenUnit ∧
        (bucketOf l1 ip).limit = (bucketOf l ip).limit ∧
        (bucketOf l1 ip).burst = (bucketOf l ip).burst ∧
        (0 < n → (bucketOf l1 ip).last = t ∧
          (bucketOf l1 ip).tokens = ((k - n : Nat) : Int) * tokenUnit) := by
  induction n with
  | zero =>
    intro l k hk _
    refine ⟨rfl, l, rfl, by simpa using hk, rfl, rfl, ?_⟩
    intro h; omega
  | succ n ih =>
    intro l k hk hn
    have hu : tokenUnit ≤ (bucketOf l ip).advance t := by
      rw [hk]
      have : (1 : Int) ≤ (k : Int) := by omega
      have hU : (0 : Int) ≤ tokenUnit := by decide
      nlinarith
    have hallow := Allow_admitted (bucketOf l ip) t hu
    have hcap := advance_le_burst (bucketOf l ip) t
    have hb1 : bucketOf (stepLimiter l ip t) ip
        = { bucketOf l ip with tokens := (bucketOf l ip).advance t - tokenUnit, last := t } := by
      rw [bucketOf_stepLimiter_self, hallow]
    have hk1 : ((k - 1 : Nat) : Int) * tokenUnit = (k : Int) * tokenUnit - tokenUnit := by
      have : ((k - 1 : Nat) : Int) = (k : Int) - 1 := by omega
      rw [this]; ring
    have hadv1 : (bucketOf (stepLimiter l ip t) ip).advance t
        = ((k - 1 : Nat) : Int) * tokenUnit := by
      rw [hb1, hk1]
      simp only [Limiter.advance, sub_self, max_self, zero_mul, add_zero]
      rw [← hk]
      apply min_eq_right
      have hU : (0 : Int) ≤ tokenUnit := by decide
      omega
    obtain ⟨hres, l1, hl1, ha1, hlim1, hbur1, hlast1⟩ :=
      ih (stepLimiter l ip t) (k - 1) hadv1 (by omega)
    have hkn : k - 1 - n = k - (n + 1) := by omega
    rw [hkn] at ha1 hlast1
    refine ⟨?_, l1, ?_, ha1, ?_, ?_, ?_⟩
    · simp only [List.replicate_succ, serve, RateLimitMiddleware_some, hallow, hres]
    · simp only [List.replicate_succ, serve, RateLimitMiddleware_some]
      exact hl1
    · rw [hlim1, hb1]
    · rw [hbur1, hb1]
    · intro _
      by_cases hn0 : n = 0
      · subst hn0
        simp only [List.replicate_zero, serve] at hl1
        have hl : l1 = stepLimiter l ip t := (Option.some.inj hl1).symm
        rw [hl, hb1]
        refine ⟨rfl, ?_⟩
        show (bucketOf l ip).advance t - tokenUnit = _
        rw [hk, ← hk1]
      · exact hlast1 (by omega)

/-- C14: take a limiter with rate `R = l.rps` and burst `B = l.burst`, `0 < R ≤ B`, and
a client address it holds no bucket for.  Of `B + 1` requests of that client at one
instant the first `B` are admitted and the last is rejected, and `R` further requests
one second later are all admitted. -/
theorem C14_burst_then_refill (l : IPRateLimiter) (ip : String) (t0 : Int)
    (hR : 0 < l.rps) (hRB : l.rps ≤ l.burst) (hnew : l.ips ip = none) :
    (serve (some l)
        (List.replicate (l.burst + 1) (ip, t0)
          ++ List.replicate l.rps (ip, t0 + 1000000000))).1
      = List.replicate l.burst true ++ [false] ++ List.replicate l.rps true := by
  have hb0 : bucketOf l ip = NewLimiter l.rps l.burst := by
    simp [bucketOf, IPRateLimiter.getLimiter, IPRateLimiter.addIP, hnew]
  have hU : (0 : Int) < tokenUnit := by decide
  have hadv0 : (bucketOf l ip).advance t0 = (l.burst : Int) * tokenUnit := by
    rw [hb0]
    simp only [Limiter.advance, NewLimiter]
    apply min_eq_left
    have : (0 : Int) ≤ max 0 (t0 - 0) * (l.rps : Int) :=
      mul_nonneg (le_max_left _ _) (Int.natCast_nonneg _)
    omega
  obtain ⟨hres1, l1, hl1, ha1, hlim1, hbur1, hlast1⟩ :=
    serve_replicate_admitted ip t0 l.burst l l.burst hadv0 (le_refl _)
  obtain ⟨hlast, htok⟩ := hlast1 (by omega)
  simp only [Nat.sub_self, Nat.cast_zero, zero_mul] at ha1 htok
  rw [hb0] at hlim1 hbur1
  simp only [NewLimiter] at hlim1 hbur1
  have hrej : ¬ tokenUnit ≤ (bucketOf l1 ip).advance t0 := by rw [ha1]; omega
  have hallow := Allow_rejected (bucketOf l1 ip) t0 hrej
  have hb2 : bucketOf (stepLimiter l1 ip t0) ip = bucketOf l1 ip := by
    rw [bucketOf_stepLimiter_self, hallow]
  have hadv2 : (bucketOf (stepLimiter l1 ip t0) ip).advance (t0 + 1000000000)
      = (l.rps : Int) * tokenUnit := by
    rw [hb2]
    simp only [Limiter.advance, hlim1, hbur1, hlast, htok, zero_add]
    have h1 : max 0 (t0 + 1000000000 - t0) = tokenUnit := by
      have : t0 + 1000000000 - t0 = (1000000000 : Int) := by ring
      rw [this]; rfl
    rw [h1, mul_comm tokenUnit]
    apply min_eq_right
    have : (l.rps : Int) ≤ (l.burst : Int) := by exact_mod_cast hRB
    nlinarith
  obtain ⟨hres3, _⟩ :=
    serve_replicate_admitted ip (t0 + 1000000000) l.rps (stepLimiter l1 ip t0) l.rps hadv2
      (le_refl _)
  rw [List.replicate_succ', List.append_assoc, serve_append]
  simp only [hres1, hl1]
  rw [serve_append]
  simp only [serve, RateLimitMiddleware_some, hallow, hres3, List.append_assoc]

/-- C14 for rate 10 and burst 20 and client "1.2.3.4", not seen before, at instant 5. -/
theorem C14_burst_then_refill_witness :
    (serve (some (InitRateLimiter defaultConfig))
        (List.replicate (20 + 1) ("1.2.3.4", 5)
          ++ List.replicate 10 ("1.2.3.4", 5 + 1000000000))).1
      = List.replicate 20 true ++ [false] ++ List.replicate 10 true :=
  C14_burst_then_refill (InitRateLimiter defaultConfig) "1.2.3.4" 5 (by decide) (by decide) rfl


end LibraryApi
